import Mathlib

/-
A shallow embedding of the space-shooter game in `space_shooter.js`.

Numbers are modelled as exact rationals.  The only irrational values the
program ever computes are `Math.sqrt(2)` (player diagonal speed, from
`Math.sqrt(speed*speed/2)` with `speed = 2`) and `Math.sqrt(4.5)` (enemy
diagonal speed, with `speed = 3`); these are modelled by the exact rational
values of the IEEE-754 doubles the JavaScript engine produces for them, so
every definition stays executable and decidable.

Mutable global state (`entities`, `queued_entities_for_removal`, counters,
the player, `enemy_spawner`) is threaded through a `World` record.  JavaScript
object identity is modelled by keying every `Body` with its numeric id in a
heap (`store`); the `entities` map of the source is the list of ids currently
registered (`delete entities[id]` removes the id from that list but leaves
the object itself alive, which is exactly what happens to the object still
referenced by `enemy_spawner`).  The sparse arrays `player.enemies` /
`player.projectiles` are modelled as `List (Option Vec2)` indexed by
position, with JavaScript `arr[i] = v`, `arr.splice(i, 1)` and the
hole-skipping `arr.map` reproduced faithfully.
-/

namespace Shooter

/-- A 2-d vector of (exact) rational coordinates. -/
structure Vec2 where
  x : ℚ
  y : ℚ
deriving DecidableEq, Repr

/-- The controller snapshot produced by `InputHandler.pollController`:
`move_x`/`move_y` are sums of the ±1 axis modifiers, `action_1` is space. -/
structure Controller where
  move_x : ℤ
  move_y : ℤ
  action_1 : Bool
deriving DecidableEq, Repr

/-- The exact rational value of the IEEE-754 double `Math.sqrt(2)`,
the player's `diagonalSpeed = Math.sqrt((speed * speed) / 2)` for `speed = 2`. -/
def sqrtTwo : ℚ := 6369051672525773 / 4503599627370496

/-- The exact rational value of the IEEE-754 double `Math.sqrt(4.5)`:
the enemy computes `Math.sqrt((speed * speed) / 2)` with `speed = 3`. -/
def sqrtNineHalves : ℚ := 4776788754394329 / 2251799813685248

/-- `Math.sqrt`, modelled at the radicands the program can reach: every
`Enemy` is constructed with `speed = 3` and the `Player` with `speed = 2`,
so the only arguments of the `diagonalSpeed` computations are
`(3 * 3) / 2 = 4.5` and `(2 * 2) / 2 = 2`; each is mapped to the exact
rational value of its IEEE-754 double square root (0 elsewhere, unreached). -/
def jsSqrt (q : ℚ) : ℚ :=
  if q = 9 / 2 then sqrtNineHalves else if q = 2 then sqrtTwo else 0

/-- `config.canvas_size.width`. -/
def canvasWidth : ℚ := 360

/-- `config.canvas_size.height`. -/
def canvasHeight : ℚ := 500

/-- `config.update_rate.seconds = 1 / config.update_rate.fps`. -/
def fixedStep : ℚ := 1 / 60

/-- JavaScript `Math.round`: round half toward positive infinity. -/
def jsRound (q : ℚ) : ℤ := ⌊q + 1 / 2⌋

/-- State of the `Player` body (fields of `Body` plus the `Player` extras;
`raw_input` is abstracted away: the polled controller is an input to each
step). -/
structure PlayerState where
  position : Vec2
  velocity : Vec2
  size : Vec2
  health : ℚ
  controller : Controller
  speed : ℚ
  enemyTimer : ℕ
  projectileReady : Bool
  hit : ℤ
  color : String
  enemies : List (Option Vec2)
  projectiles : List (Option Vec2)
deriving DecidableEq, Repr

/-- State of an `Enemy` body. -/
structure EnemyState where
  position : Vec2
  velocity : Vec2
  size : Vec2
  health : ℚ
  speed : ℚ
deriving DecidableEq, Repr

/-- State of a `Projectile` body: `projectile` is the point the projectile
logic moves; `position`/`velocity` are the (inert) `Body` fields. -/
structure ProjState where
  position : Vec2
  velocity : Vec2
  size : Vec2
  health : ℚ
  speed : ℚ
  projectile : Vec2
deriving DecidableEq, Repr

/-- A non-player body stored in the entity heap. -/
inductive Entity where
  | enemy (e : EnemyState)
  | projectile (pr : ProjState)
deriving DecidableEq, Repr

/-- `Body.isDead`: health less than or equal to zero. -/
def isDeadHealth (health : ℚ) : Bool := health ≤ 0

/-- JavaScript sparse-array write `a[i] = v` (pads with holes if needed). -/
def sparseSet (a : List (Option Vec2)) (i : ℕ) (v : Vec2) : List (Option Vec2) :=
  if i < a.length then a.set i (some v)
  else a ++ List.replicate (i - a.length) none ++ [some v]

/-- JavaScript `a.splice(i, 1)`: remove the slot at index `i` (hole or not);
a no-op when `i` is out of range. -/
def spliceOne (a : List (Option Vec2)) (i : ℕ) : List (Option Vec2) :=
  if i < a.length then a.eraseIdx i else a

/-- The full mutable global state of the program. -/
structure World where
  running_id : ℕ
  loop_count : ℕ
  enemiesHit : ℕ
  enemyCount : ℕ
  masterTime : ℚ
  timeAliveCount : ℚ
  prevAliveCount : ℚ
  currerntHighScore : ℤ
  masterHighScore : ℤ
  projShotTime : ℚ
  player : PlayerState
  player_id : ℕ
  store : List (ℕ × Entity)
  entities : List ℕ
  queued_entities_for_removal : List ℕ
  enemy_spawner : Option ℕ
  rng : ℕ → ℚ
  rngIdx : ℕ

/-- `Body.remove`: push this body's id onto `queued_entities_for_removal`. -/
def queueRemoval (w : World) (id : ℕ) : World :=
  { w with queued_entities_for_removal := w.queued_entities_for_removal ++ [id] }

/-- Overwrite the heap entry with key `id`. -/
def storeSet (s : List (ℕ × Entity)) (id : ℕ) (e : Entity) : List (ℕ × Entity) :=
  s.map fun p => if p.1 = id then (id, e) else p

/-- `new Enemy()`: allocate the next id, register the body, and place it at a
random x in `[30, 290)` and `y = -50` (`Math.floor(Math.random()*260)+30`). -/
def spawnEnemy (w : World) : World :=
  let id := w.running_id
  let ex : ℚ := ((⌊w.rng w.rngIdx * 260⌋ : ℤ) : ℚ) + 30
  let e : EnemyState :=
    { position := ⟨ex, -50⟩, velocity := ⟨0, 0⟩, size := ⟨10, 10⟩, health := 100, speed := 3 }
  { w with
    running_id := id + 1
    rngIdx := w.rngIdx + 1
    store := w.store ++ [(id, Entity.enemy e)]
    entities := w.entities ++ [id] }

/-- `new Projectile()`: allocate the next id, register the body, and set its
`projectile` point to the player's current position. -/
def spawnProjectile (w : World) : World :=
  let id := w.running_id
  let pr : ProjState :=
    { position := ⟨0, 0⟩, velocity := ⟨0, 0⟩, size := ⟨10, 10⟩, health := 100, speed := 5
      projectile := ⟨w.player.position.x, w.player.position.y⟩ }
  { w with
    running_id := id + 1
    store := w.store ++ [(id, Entity.projectile pr)]
    entities := w.entities ++ [id] }

/-- The movement part of `Enemy.update`: home diagonally toward the player's
x-side when the vertical distance to the player is in `(0, 150)` and the
rounded y-position is a multiple of 4 (JavaScript `%` on a possibly negative
rounded value is truncated remainder), otherwise fall straight down by
`speed`.  `diagonalSpeed = Math.sqrt((this.speed * this.speed) / 2) * 2`. -/
def moveEnemy (espeed : ℚ) (ppos epos : Vec2) : Vec2 :=
  let diagonalSpeed := jsSqrt ((espeed * espeed) / 2) * 2
  if ppos.y - epos.y < 150 ∧ ppos.y - epos.y > 0 ∧ Int.tmod (jsRound epos.y) 4 = 0 then
    if ppos.x > epos.x then
      ⟨epos.x + diagonalSpeed / 1.5, epos.y + diagonalSpeed / 1.5⟩
    else
      ⟨epos.x - diagonalSpeed / 1.5, epos.y + diagonalSpeed / 1.5⟩
  else
    ⟨epos.x, epos.y + espeed⟩

/-- The controller-movement chain of `Player.update`: diagonal movement uses
`diagonalSpeed = Math.sqrt((this.speed * this.speed) / 2)`, single-axis
movement uses `speed`. -/
def playerMove (c : Controller) (speed : ℚ) (pos : Vec2) : Vec2 :=
  let diagonalSpeed : ℚ := jsSqrt ((speed * speed) / 2)
  if c.move_x = 1 ∧ c.move_y = -1 then ⟨pos.x + diagonalSpeed, pos.y - diagonalSpeed⟩
  else if c.move_x = -1 ∧ c.move_y = -1 then ⟨pos.x - diagonalSpeed, pos.y - diagonalSpeed⟩
  else if c.move_x = -1 ∧ c.move_y = 1 then ⟨pos.x - diagonalSpeed, pos.y + diagonalSpeed⟩
  else if c.move_x = 1 ∧ c.move_y = 1 then ⟨pos.x + diagonalSpeed, pos.y + diagonalSpeed⟩
  else if c.move_x = -1 then ⟨pos.x - speed, pos.y⟩
  else if c.move_x = 1 then ⟨pos.x + speed, pos.y⟩
  else if c.move_y = -1 then ⟨pos.x, pos.y - speed⟩
  else if c.move_y = 1 then ⟨pos.x, pos.y + speed⟩
  else pos

/-- `Player.update(delta_time)`. -/
def playerUpdate (dt : ℚ) (w : World) : World :=
  -- this.enemyTimer += 1
  let timer := w.player.enemyTimer + 1
  let w := { w with player := { w.player with enemyTimer := timer } }
  -- spawn an enemy every 20 ticks
  let w :=
    if timer % 20 = 0 then spawnEnemy { w with enemyCount := w.enemyCount + 1 } else w
  -- re-arm the projectile every 40 ticks
  let w :=
    if timer % 40 = 0 ∧ w.player.projectileReady = false then
      { w with player := { w.player with projectileReady := true } }
    else w
  -- fire a projectile
  let w :=
    if w.player.controller.action_1 = true ∧ w.player.projectileReady = true then
      if w.masterTime > w.projShotTime + 1 / 2 then
        let w := { w with projShotTime := w.masterTime }
        let w := spawnProjectile w
        { w with player := { w.player with projectileReady := false } }
      else w
    else w
  -- damage flash
  let w :=
    if w.player.hit ≠ 0 ∧ w.player.health > 0 then
      let hit := w.player.hit - 1
      let color :=
        if hit > 80 ∨ (hit > 40 ∧ hit < 60) ∨ (hit < 20 ∧ hit > 2) then "#FF0000" else "#90EE90"
      { w with player := { w.player with hit := hit, color := color } }
    else
      { w with player := { w.player with color := "#90EE90" } }
  -- movement from the controller
  let pos : Vec2 := playerMove w.player.controller w.player.speed w.player.position
  -- super.update: position += delta_time * velocity
  let pos : Vec2 := ⟨pos.x + dt * w.player.velocity.x, pos.y + dt * w.player.velocity.y⟩
  -- clip to screen
  let pos : Vec2 := ⟨min (max 0 pos.x) canvasWidth, min (max 0 pos.y) canvasHeight⟩
  { w with player := { w.player with position := pos } }

/-- One step of the `player.projectiles.map` collision scan inside
`Enemy.update`: if the (post-movement) enemy position is within 10 units of
the published projectile position on both axes, the enemy queues itself for
removal; holes are skipped. -/
def enemyProjStep (epos : Vec2) (id : ℕ) (w : World) (o : Option Vec2) : World :=
  match o with
  | some pr =>
      if epos.x + 10 ≥ pr.x ∧ epos.x - 10 ≤ pr.x ∧ epos.y + 10 ≥ pr.y ∧ epos.y - 10 ≤ pr.y
      then queueRemoval w id else w
  | none => w

/-- Whether an observation-array slot holds a projectile position within the
10-unit box around `epos` (the test of `enemyProjStep`). -/
def projHit (epos : Vec2) (o : Option Vec2) : Bool :=
  match o with
  | some pr =>
      decide (epos.x + 10 ≥ pr.x ∧ epos.x - 10 ≤ pr.x ∧ epos.y + 10 ≥ pr.y ∧ epos.y - 10 ≤ pr.y)
  | none => false

/-- One step of the `player.enemies.map` collision scan inside
`Projectile.update`: if the (post-movement) projectile position is within 8
units of the published enemy position on both axes, increment the global
`enemiesHit` counter and queue the projectile for removal; holes are
skipped. -/
def projEnemyStep (pj : Vec2) (id : ℕ) (w : World) (o : Option Vec2) : World :=
  match o with
  | some en =>
      if pj.x + 8 ≥ en.x ∧ pj.x - 8 ≤ en.x ∧ pj.y + 8 ≥ en.y ∧ pj.y - 8 ≤ en.y
      then queueRemoval { w with enemiesHit := w.enemiesHit + 1 } id else w
  | none => w

/-- Whether an observation-array slot holds an enemy position within the
8-unit box around `pj` (the test of `projEnemyStep`). -/
def enemyHit (pj : Vec2) (o : Option Vec2) : Bool :=
  match o with
  | some en =>
      decide (pj.x + 8 ≥ en.x ∧ pj.x - 8 ≤ en.x ∧ pj.y + 8 ≥ en.y ∧ pj.y - 8 ≤ en.y)
  | none => false

/-- `Enemy.update(delta_time)` for the enemy with the given id and current
state. -/
def enemyUpdate (dt : ℚ) (w : World) (id : ℕ) (e : EnemyState) : World :=
  -- removes enemy if player dies
  let w := if w.player.health = 0 then queueRemoval w id else w
  -- adds enemy to player array (pre-movement position)
  let w := { w with player := { w.player with enemies := sparseSet w.player.enemies id e.position } }
  -- "bug fix": the body with id 1 removes itself
  let w := if id = 1 then queueRemoval w id else w
  -- movement
  let epos := moveEnemy e.speed w.player.position e.position
  -- removes enemy once it exits view
  let w := if epos.y > 500 then queueRemoval w id else w
  -- hit by a projectile? (hole-skipping map over player.projectiles)
  let w := w.player.projectiles.foldl (enemyProjStep epos id) w
  -- hits the player?
  let w :=
    if epos.x + 10 ≥ w.player.position.x ∧ epos.x - 10 ≤ w.player.position.x ∧
        epos.y + 10 ≥ w.player.position.y ∧ epos.y - 10 ≤ w.player.position.y then
      queueRemoval
        { w with player := { w.player with hit := 100, health := w.player.health - 25 } } id
    else w
  -- super.update and clip to screen (+50 slack)
  let epos : Vec2 := ⟨epos.x + dt * e.velocity.x, epos.y + dt * e.velocity.y⟩
  let epos : Vec2 := ⟨min (max 0 epos.x) (canvasWidth + 50), min (max 0 epos.y) (canvasHeight + 50)⟩
  { w with store := storeSet w.store id (Entity.enemy { e with position := epos }) }

/-- `Projectile.update(delta_time)` for the projectile with the given id and
current state. -/
def projectileUpdate (dt : ℚ) (w : World) (id : ℕ) (pr : ProjState) : World :=
  -- removes all projectiles when player dies
  let w := if w.player.health = 0 then queueRemoval w id else w
  -- adds projectile to player array (pre-movement position)
  let w :=
    { w with player := { w.player with projectiles := sparseSet w.player.projectiles id pr.projectile } }
  -- moves projectile up the board
  let pj : Vec2 := ⟨pr.projectile.x, pr.projectile.y - pr.speed⟩
  -- left the field of view?
  let w := if pj.y < 0 then queueRemoval w id else w
  -- hit an enemy? (hole-skipping map over player.enemies)
  let w := w.player.enemies.foldl (projEnemyStep pj id) w
  -- super.update on the (inert) Body position, and clip to screen
  let bpos : Vec2 := ⟨pr.position.x + dt * pr.velocity.x, pr.position.y + dt * pr.velocity.y⟩
  let pj : Vec2 := ⟨min (max 0 pj.x) canvasWidth, min (max 0 pj.y) canvasHeight⟩
  { w with store := storeSet w.store id (Entity.projectile { pr with position := bpos, projectile := pj }) }

/-- Dispatch one entity update by id: the player's id runs `Player.update`,
other ids run the update of the body stored in the heap. -/
def updateEntityById (dt : ℚ) (w : World) (id : ℕ) : World :=
  if id = w.player_id then playerUpdate dt w
  else
    match List.lookup id w.store with
    | some (Entity.enemy e) => enemyUpdate dt w id e
    | some (Entity.projectile pr) => projectileUpdate dt w id pr
    | none => w

/-- The "move entities" pass of `update(delta_time)`: poll the controller into
the player, then update every body in the (snapshot of the) registry;
`Object.values(entities)` iterates the integer keys in ascending order and the
snapshot is taken once, so bodies registered during the pass are not updated
in it. -/
def passPhase (dt : ℚ) (ctrl : Controller) (w : World) : World :=
  let w := { w with player := { w.player with controller := ctrl } }
  w.entities.foldl (updateEntityById dt) w

/-- One step of the removal flush: `splice(id, 1)` both player observation
arrays and `delete entities[id]`. -/
def removeStep (w : World) (id : ℕ) : World :=
  { w with
    player := { w.player with
      enemies := spliceOne w.player.enemies id
      projectiles := spliceOne w.player.projectiles id }
    entities := w.entities.erase id }

/-- The "remove enemies" part of `update(delta_time)`: run `removeStep` for
every queued id, then clear the queue. -/
def flushRemovals (w : World) : World :=
  let w := w.queued_entities_for_removal.foldl removeStep w
  { w with queued_entities_for_removal := [] }

/-- `start()`: ratchet the high score, reset the session counters, empty the
registry and the removal queue, create a fresh `Player` and a fresh `Enemy`
bound to `enemy_spawner`.  (`running_id`, `masterTime`, `projShotTime` and
`loop_count` are deliberately not reset by the source.) -/
def startWorld (w : World) : World :=
  let masterHigh :=
    if w.currerntHighScore > w.masterHighScore then w.currerntHighScore else w.masterHighScore
  let pid := w.running_id
  let player : PlayerState :=
    { position := ⟨canvasWidth / 2, canvasHeight - 100⟩, velocity := ⟨0, 0⟩, size := ⟨10, 10⟩
      health := 100, controller := ⟨0, 0, false⟩, speed := 2, enemyTimer := 0
      projectileReady := false, hit := 0, color := "#90EE90", enemies := [], projectiles := [] }
  let w :=
    { w with
      masterHighScore := masterHigh
      prevAliveCount := w.masterTime
      enemiesHit := 0
      enemyCount := 0
      timeAliveCount := 0
      store := []
      entities := [pid]
      queued_entities_for_removal := []
      player := player
      player_id := pid
      running_id := pid + 1 }
  let sid := w.running_id
  let w := spawnEnemy w
  { w with enemy_spawner := some sid }

/-- `update(delta_time)` up to (but not including) the restart check:
entity pass, (absent) collision handler, removal flush, and the
`enemy_spawner.update` call that runs after the flush. -/
def updateWorldPre (dt : ℚ) (ctrl : Controller) (w : World) : World :=
  let w := passPhase dt ctrl w
  -- collision_handler is never assigned in the source, so that branch is skipped
  let w := flushRemovals w
  match w.enemy_spawner with
  | some sid => updateEntityById dt w sid
  | none => w

/-- The whole of `update(delta_time)`: `updateWorldPre` followed by the
"allow the player to restart when dead" check. -/
def updateWorld (dt : ℚ) (ctrl : Controller) (w : World) : World :=
  let w := updateWorldPre dt ctrl w
  if isDeadHealth w.player.health = true ∧ w.player.controller.action_1 = true then startWorld w
  else w

/-- `draw(graphics)` renders the game-over overlay exactly when
`player.isDead()`. -/
def gameOverShown (w : World) : Bool := isDeadHealth w.player.health

/-- The numeric values written to the HUD spans inside the `while` loop of
`loop` (after `loop_count++`). -/
structure Hud where
  loopCountShown : ℕ
  killCountShown : ℕ
  timeAliveShown : ℤ
  enemyCountShown : ℕ
  totalScoreShown : ℤ
  highScoreShown : ℤ
  healthShown : ℚ
deriving DecidableEq, Repr

/-- The HUD values the `while` body of `loop` writes for a given world. -/
def hudFor (w : World) : Hud :=
  { loopCountShown := w.loop_count
    killCountShown := w.enemiesHit
    timeAliveShown := if w.player.health > 0 then jsRound w.timeAliveCount else 0
    enemyCountShown := if w.player.health > 0 then w.enemyCount else 0
    totalScoreShown := if w.player.health > 0 then w.currerntHighScore else 0
    highScoreShown := w.masterHighScore
    healthShown := w.player.health }

/-- The scheduler state surrounding a `loop` callback: the world, the
(nullable) `last_time` in seconds, and the last HUD written. -/
structure SchedState where
  w : World
  last_time : Option ℚ
  hud : Hud

/-- The `while (delta_time > config.update_rate.seconds)` loop of `loop`.
Each iteration runs `update(fixedStep)` (with the controller the input stream
yields for the current `loop_count`), draws, subtracts the fixed step, sets
`last_time` to the callback time, increments `loop_count` and rewrites the
HUD.  Returns the final state, the list of delta values passed to `update`,
and the list of worlds after each update step. -/
def runSteps (inputs : ℕ → Controller) (curr : ℚ) (st : SchedState) (delta : ℚ) :
    SchedState × List ℚ × List World :=
  if h : delta > fixedStep then
    let w := updateWorld fixedStep (inputs st.w.loop_count) st.w
    let w := { w with loop_count := w.loop_count + 1 }
    let st' : SchedState := ⟨w, some curr, hudFor w⟩
    let r := runSteps inputs curr st' (delta - fixedStep)
    (r.1, fixedStep :: r.2.1, w :: r.2.2)
  else (st, [], [])
termination_by (⌈delta * 60⌉).toNat
decreasing_by
  have h1 : (delta - fixedStep) * 60 = delta * 60 - ((1 : ℤ) : ℚ) := by
    simp only [fixedStep]; push_cast; ring
  have h2 : (1 : ℚ) < delta * 60 := by
    have : fixedStep * 60 = 1 := by norm_num [fixedStep]
    nlinarith [h, this]
  have h3 : (1 : ℤ) < ⌈delta * 60⌉ := by
    rw [Int.lt_ceil]; exact_mod_cast h2
  rw [h1, Int.ceil_sub_int]
  omega

/-- One `loop(curr_time)` callback: convert milliseconds to seconds, handle
the first-frame edge case, compute `delta_time`, update `timeAliveCount`,
`masterTime`, `currerntHighScore` and `masterHighScore`, then run the
fixed-step `while` loop. -/
def loopIter (inputs : ℕ → Controller) (st : SchedState) (curr_time_ms : ℚ) :
    SchedState × List ℚ × List World :=
  let curr := curr_time_ms / 1000
  let last := match st.last_time with | none => curr | some t => t
  let delta := curr - last
  let w := st.w
  let w := { w with timeAliveCount := curr - w.prevAliveCount, masterTime := curr }
  let w := if w.player.health = 0 then { w with timeAliveCount := w.prevAliveCount } else w
  let w := { w with currerntHighScore := ⌊30 * (w.enemiesHit : ℚ) + w.timeAliveCount⌋ }
  let w :=
    if w.currerntHighScore > w.masterHighScore then { w with masterHighScore := w.currerntHighScore }
    else w
  runSteps inputs curr ⟨w, some last, st.hud⟩ delta

/-- Run a whole sequence of animation-frame callbacks, accumulating the deltas
passed to `update` and the trace of worlds after each update step. -/
def runCallbacks (inputs : ℕ → Controller) (st : SchedState) :
    List ℚ → SchedState × List ℚ × List World
  | [] => (st, [], [])
  | t :: ts =>
    let r := loopIter inputs st t
    let rest := runCallbacks inputs r.1 ts
    (rest.1, r.2.1 ++ rest.2.1, r.2.2 ++ rest.2.2)

/-- The pristine state before the top-level `start()` call. -/
def pristineWorld (rng : ℕ → ℚ) : World :=
  { running_id := 0, loop_count := 0, enemiesHit := 0, enemyCount := 0
    masterTime := 0, timeAliveCount := 0, prevAliveCount := 0
    currerntHighScore := 0, masterHighScore := 0, projShotTime := 0
    player :=
      { position := ⟨0, 0⟩, velocity := ⟨0, 0⟩, size := ⟨10, 10⟩, health := 100
        controller := ⟨0, 0, false⟩, speed := 2, enemyTimer := 0, projectileReady := false
        hit := 0, color := "#90EE90", enemies := [], projectiles := [] }
    player_id := 0, store := [], entities := [], queued_entities_for_removal := []
    enemy_spawner := none, rng := rng, rngIdx := 0 }

/-- The world right after the top-level `start()` at script load. -/
def bootWorld (rng : ℕ → ℚ) : World := startWorld (pristineWorld rng)

/-- The scheduler state at script load: `last_time = null`. -/
def bootSched (rng : ℕ → ℚ) : SchedState :=
  ⟨bootWorld rng, none, ⟨0, 0, 0, 0, 0, 0, 100⟩⟩

/-- An idle controller: no keys held. -/
def idleCtrl : Controller := ⟨0, 0, false⟩

/-- A controller holding only the fire button. -/
def fireCtrl : Controller := ⟨0, 0, true⟩

/-- A deterministic stand-in for `Math.random`, always 0 (spawn x = 30). -/
def zeroRng : ℕ → ℚ := fun _ => 0

/-- Whether a heap entry holds a `Projectile` body. -/
def isProjEntry (p : ℕ × Entity) : Bool :=
  match p.2 with
  | Entity.projectile _ => true
  | _ => false

/-- The number of projectile bodies in the heap. -/
def projCount (w : World) : ℕ := (w.store.filter isProjEntry).length

/-- Well-formedness of a world: the registry has no duplicate ids, heap keys
are unique, and every id anywhere is below the `running_id` allocator. -/
def WF (w : World) : Prop :=
  w.entities.Nodup ∧
  (w.store.map Prod.fst).Nodup ∧
  (∀ id ∈ w.entities, id < w.running_id) ∧
  (∀ p ∈ w.store, p.1 < w.running_id) ∧
  (∀ id ∈ w.queued_entities_for_removal, id < w.running_id) ∧
  w.player_id < w.running_id ∧
  (∀ sid ∈ w.enemy_spawner, sid < w.running_id)

instance (w : World) : Decidable (WF w) := by
  unfold WF; infer_instance

/-- The condition under which `Player.update` fires a projectile, expressed on
the pre-step world: the fire button is down, the projectile is armed (either
already, or re-armed this very tick because the incremented `enemyTimer` is a
multiple of 40), and `masterTime` exceeds the recorded shot time by more than
half a second. -/
def fireCond (w : World) (ctrl : Controller) : Prop :=
  ctrl.action_1 = true ∧
  (w.player.projectileReady = true ∨
    ((w.player.enemyTimer + 1) % 40 = 0 ∧ w.player.projectileReady = false)) ∧
  w.masterTime > w.projShotTime + 1 / 2

instance (w : World) (ctrl : Controller) : Decidable (fireCond w ctrl) := by
  unfold fireCond; infer_instance

/-
Structural lemmas: closed forms of the three entity updates.
-/

lemma enemyProjStep_eq (epos : Vec2) (id : ℕ) (w : World) (o : Option Vec2) :
    enemyProjStep epos id w o = if projHit epos o then queueRemoval w id else w := by
  cases o with
  | none => simp [enemyProjStep, projHit]
  | some pr => simp only [enemyProjStep, projHit, decide_eq_true_eq]

lemma projEnemyStep_eq (pj : Vec2) (id : ℕ) (w : World) (o : Option Vec2) :
    projEnemyStep pj id w o =
      if enemyHit pj o then queueRemoval { w with enemiesHit := w.enemiesHit + 1 } id else w := by
  cases o with
  | none => simp [projEnemyStep, enemyHit]
  | some en => simp only [projEnemyStep, enemyHit, decide_eq_true_eq]

lemma foldl_enemyProjStep (epos : Vec2) (id : ℕ) :
    ∀ (l : List (Option Vec2)) (w : World),
      l.foldl (enemyProjStep epos id) w =
        { w with queued_entities_for_removal :=
            w.queued_entities_for_removal ++ List.replicate (l.countP (projHit epos)) id } := by
  intro l
  induction l with
  | nil => intro w; simp
  | cons o t ih =>
    intro w
    rw [List.foldl_cons, ih, enemyProjStep_eq, List.countP_cons]
    by_cases h : projHit epos o
    · simp only [h, if_true, queueRemoval]
      simp [List.replicate_succ, List.replicate_succ']
    · simp [h]

lemma foldl_projEnemyStep (pj : Vec2) (id : ℕ) :
    ∀ (l : List (Option Vec2)) (w : World),
      l.foldl (projEnemyStep pj id) w =
        { w with
          enemiesHit := w.enemiesHit + l.countP (enemyHit pj)
          queued_entities_for_removal :=
            w.queued_entities_for_removal ++ List.replicate (l.countP (enemyHit pj)) id } := by
  intro l
  induction l with
  | nil => intro w; simp
  | cons o t ih =>
    intro w
    rw [List.foldl_cons, ih, projEnemyStep_eq, List.countP_cons]
    by_cases h : enemyHit pj o
    · simp only [h, if_true, queueRemoval]
      have hn : ∀ a b : ℕ, a + 1 + b = a + (b + 1) := fun a b => by omega
      simp [List.replicate_succ, List.append_assoc, hn]
    · simp [h]

set_option maxHeartbeats 1000000 in
/-- Closed form of `Enemy.update`. -/
lemma enemyUpdate_eq (dt : ℚ) (v : World) (id : ℕ) (e : EnemyState) :
    enemyUpdate dt v id e =
      (let epos := moveEnemy e.speed v.player.position e.position
       let overlap := epos.x + 10 ≥ v.player.position.x ∧ epos.x - 10 ≤ v.player.position.x ∧
          epos.y + 10 ≥ v.player.position.y ∧ epos.y - 10 ≤ v.player.position.y
       let eposF : Vec2 := ⟨min (max 0 (epos.x + dt * e.velocity.x)) (canvasWidth + 50),
          min (max 0 (epos.y + dt * e.velocity.y)) (canvasHeight + 50)⟩
       { v with
         player := { v.player with
           enemies := sparseSet v.player.enemies id e.position
           hit := if overlap then 100 else v.player.hit
           health := if overlap then v.player.health - 25 else v.player.health }
         queued_entities_for_removal :=
           v.queued_entities_for_removal ++
             (if v.player.health = 0 then [id] else []) ++
             (if id = 1 then [id] else []) ++
             (if epos.y > 500 then [id] else []) ++
             List.replicate (v.player.projectiles.countP (projHit epos)) id ++
             (if overlap then [id] else [])
         store := storeSet v.store id (Entity.enemy { e with position := eposF }) }) := by
  simp only [enemyUpdate, foldl_enemyProjStep, queueRemoval]
  split_ifs <;> simp_all

set_option maxHeartbeats 1000000 in
/-- Closed form of `Projectile.update`. -/
lemma projectileUpdate_eq (dt : ℚ) (v : World) (id : ℕ) (pr : ProjState) :
    projectileUpdate dt v id pr =
      (let pj : Vec2 := ⟨pr.projectile.x, pr.projectile.y - pr.speed⟩
       { v with
         enemiesHit := v.enemiesHit + v.player.enemies.countP (enemyHit pj)
         player := { v.player with
           projectiles := sparseSet v.player.projectiles id pr.projectile }
         queued_entities_for_removal :=
           v.queued_entities_for_removal ++
             (if v.player.health = 0 then [id] else []) ++
             (if pj.y < 0 then [id] else []) ++
             List.replicate (v.player.enemies.countP (enemyHit pj)) id
         store := storeSet v.store id (Entity.projectile { pr with
           position := ⟨pr.position.x + dt * pr.velocity.x, pr.position.y + dt * pr.velocity.y⟩
           projectile := ⟨min (max 0 pj.x) canvasWidth, min (max 0 pj.y) canvasHeight⟩ }) }) := by
  simp only [projectileUpdate, foldl_projEnemyStep, queueRemoval]
  split_ifs <;> simp_all

set_option maxHeartbeats 4000000 in
/-- Closed form of `Player.update`. -/
lemma playerUpdate_eq (dt : ℚ) (v : World) :
    playerUpdate dt v =
      (let timer := v.player.enemyTimer + 1
       let armed : Bool := if timer % 40 = 0 ∧ v.player.projectileReady = false then true
         else v.player.projectileReady
       let fire := v.player.controller.action_1 = true ∧ armed = true ∧
         v.masterTime > v.projShotTime + 1 / 2
       let rid1 := if timer % 20 = 0 then v.running_id + 1 else v.running_id
       let flash := v.player.hit ≠ 0 ∧ v.player.health > 0
       let hit2 := if flash then v.player.hit - 1 else v.player.hit
       let posF : Vec2 :=
         let pos := playerMove v.player.controller v.player.speed v.player.position
         ⟨min (max 0 (pos.x + dt * v.player.velocity.x)) canvasWidth,
          min (max 0 (pos.y + dt * v.player.velocity.y)) canvasHeight⟩
       { v with
         running_id := if fire then rid1 + 1 else rid1
         rngIdx := if timer % 20 = 0 then v.rngIdx + 1 else v.rngIdx
         enemyCount := if timer % 20 = 0 then v.enemyCount + 1 else v.enemyCount
         projShotTime := if fire then v.masterTime else v.projShotTime
         store := (if timer % 20 = 0 then v.store ++ [(v.running_id, Entity.enemy
              { position := ⟨((⌊v.rng v.rngIdx * 260⌋ : ℤ) : ℚ) + 30, -50⟩, velocity := ⟨0, 0⟩
                size := ⟨10, 10⟩, health := 100, speed := 3 })] else v.store) ++
           (if fire then [(rid1, Entity.projectile
              { position := ⟨0, 0⟩, velocity := ⟨0, 0⟩, size := ⟨10, 10⟩, health := 100, speed := 5
                projectile := ⟨v.player.position.x, v.player.position.y⟩ })] else [])
         entities := (if timer % 20 = 0 then v.entities ++ [v.running_id] else v.entities) ++
           (if fire then [rid1] else [])
         player := { v.player with
           enemyTimer := timer
           projectileReady := if fire then false else armed
           hit := hit2
           color := if flash then
               (if hit2 > 80 ∨ (hit2 > 40 ∧ hit2 < 60) ∨ (hit2 < 20 ∧ hit2 > 2) then "#FF0000"
                else "#90EE90")
             else "#90EE90"
           position := posF } }) := by
  simp only [playerUpdate, spawnEnemy, spawnProjectile]
  by_cases h1 : (v.player.enemyTimer + 1) % 20 = 0 <;>
    simp only [h1, ite_true, ite_false, if_true, if_false] <;>
  by_cases h2 : (v.player.enemyTimer + 1) % 40 = 0 ∧ v.player.projectileReady = false <;>
    simp only [h2, ite_true, ite_false, if_true, if_false] <;>
  split_ifs <;> simp_all <;> linarith

/-
Theorems.
-/

/-- Every delta the `while` loop passes to `update` is the fixed step. -/
lemma runSteps_deltas (inputs : ℕ → Controller) (curr : ℚ) (st : SchedState) (delta : ℚ) :
    ∀ d ∈ (runSteps inputs curr st delta).2.1, d = fixedStep := by
  induction st, delta using runSteps.induct inputs curr with
  | case1 st delta h w w2 st2 ih =>
    rw [runSteps, dif_pos h]
    intro d hd
    rcases List.mem_cons.mp hd with h1 | h1
    · exact h1
    · exact ih d h1
  | case2 st delta h =>
    rw [runSteps, dif_neg h]
    simp

/-- A list all of whose members equal `c` sums to its length times `c`. -/
lemma sum_of_all_eq {l : List ℚ} {c : ℚ} (h : ∀ d ∈ l, d = c) :
    l.sum = l.length * c := by
  induction l with
  | nil => simp
  | cons a t ih =>
    have ha : a = c := h a (List.mem_cons_self a t)
    have ht : ∀ d ∈ t, d = c := fun d hd => h d (List.mem_cons_of_mem a hd)
    simp only [List.sum_cons, List.length_cons, ha, ih ht]
    push_cast
    ring

/-- Every delta a whole callback run passes to `update` is the fixed step. -/
lemma runCallbacks_deltas (inputs : ℕ → Controller) :
    ∀ (ts : List ℚ) (st : SchedState), ∀ d ∈ (runCallbacks inputs st ts).2.1, d = fixedStep := by
  intro ts
  induction ts with
  | nil => intro st d hd; simp [runCallbacks] at hd
  | cons t ts ih =>
    intro st d hd
    rw [runCallbacks] at hd
    rcases List.mem_append.mp hd with h1 | h1
    · exact runSteps_deltas _ _ _ _ d (by simpa [loopIter] using h1)
    · exact ih _ d h1

/-- C1.  For every sequence of raw animation-frame timestamps (and any input
stream and starting state), every delta the scheduler `loop` passes to
`update` is exactly the fixed step `1/60`, and the total simulated time
advanced over the run is exactly the number of update calls times `1/60`;
steps are only ever whole fixed steps, never partial ones. -/
theorem scheduler_fixed_step (inputs : ℕ → Controller) (st : SchedState) (ts : List ℚ) :
    fixedStep = 1 / 60 ∧
    (∀ d ∈ (runCallbacks inputs st ts).2.1, d = fixedStep) ∧
    ((runCallbacks inputs st ts).2.1).sum =
      (((runCallbacks inputs st ts).2.1).length : ℚ) * (1 / 60) := by
  refine ⟨rfl, runCallbacks_deltas inputs ts st, ?_⟩
  have h := sum_of_all_eq (runCallbacks_deltas inputs ts st)
  simpa [fixedStep] using h

/-
Concrete test fixtures.
-/

/-- An input stream that never presses anything. -/
def idleInputs : ℕ → Controller := fun _ => idleCtrl

/-- An input stream that starts holding the fire button from update step 79
(0-based `loop_count` 78) onward and never releases it. -/
def heldFireLate : ℕ → Controller := fun k => if 78 ≤ k then fireCtrl else idleCtrl

/-- Boot, then a callback at 1325 ms: `delta = 1.325 s` runs update steps
1..79; the fire button is down from step 79 on, so step 79 fires the first
projectile (the projectile had been armed since tick 40). -/
def c4Run79 : SchedState × List ℚ × List World :=
  runCallbacks heldFireLate (bootSched zeroRng) [0, 1325]

/-- The next callback at 1835 ms (0.51 s of wall time later): its first
update step is step 80, which re-arms the projectile (`80 % 40 = 0`) and
fires again because `masterTime` (wall-clock callback time) moved past
`projShotTime + 0.5`, although only one fixed step of simulated time has
elapsed since the previous shot. -/
def c4Step80 : SchedState × List ℚ × List World :=
  loopIter heldFireLate c4Run79.1 1835

/-- A world whose removal queue is about to be flushed, with three live
slots in each observation array and the enemy id 2 registered. -/
def c3World : World :=
  { pristineWorld zeroRng with
    running_id := 3
    entities := [0, 2]
    store := [(2, Entity.enemy
      { position := ⟨50, 100⟩, velocity := ⟨0, 0⟩, size := ⟨10, 10⟩, health := 100, speed := 3 })]
    player := { (pristineWorld zeroRng).player with
      position := ⟨180, 400⟩
      enemies := [some ⟨1, 1⟩, some ⟨2, 2⟩, some ⟨3, 3⟩, some ⟨7, 7⟩]
      projectiles := [some ⟨4, 4⟩, some ⟨5, 5⟩, some ⟨6, 6⟩, some ⟨8, 8⟩] } }

/-- An enemy sitting 9 horizontal units away from a published projectile
position (after its straight fall it is at `(109, 203)`, the projectile at
`(100, 203)`). -/
def c6Enemy : EnemyState :=
  { position := ⟨109, 200⟩, velocity := ⟨0, 0⟩, size := ⟨10, 10⟩, health := 100, speed := 3 }

/-- A world for the enemy-versus-projectile proximity check: the player far
away, one projectile published at `(100, 203)`. -/
def c6World : World :=
  { pristineWorld zeroRng with
    running_id := 3
    entities := [0, 2]
    store := [(2, Entity.enemy c6Enemy)]
    player := { (pristineWorld zeroRng).player with
      position := ⟨300, 400⟩
      projectiles := [none, none, none, some ⟨100, 203⟩] } }

/-- A world in which the player is dead (`health = 0`) and `enemyTimer` is
about to reach 20, with the usual ghost spawner outside the registry. -/
def c7World : World :=
  { pristineWorld zeroRng with
    running_id := 2
    entities := [0]
    enemy_spawner := some 1
    store := [(1, Entity.enemy
      { position := ⟨30, 100⟩, velocity := ⟨0, 0⟩, size := ⟨10, 10⟩, health := 100, speed := 3 })]
    player := { (pristineWorld zeroRng).player with
      position := ⟨180, 400⟩, health := 0, enemyTimer := 19 } }

/-- A world with 25 health and two enemies overlapping the player (both
within the 10-unit box after their straight fall), plus a distant enemy
(id 4) and a distant projectile (id 5). -/
def c10World : World :=
  { pristineWorld zeroRng with
    running_id := 6
    entities := [0, 2, 3, 4, 5]
    store := [
      (2, Entity.enemy
        { position := ⟨180, 390⟩, velocity := ⟨0, 0⟩, size := ⟨10, 10⟩, health := 100, speed := 3 }),
      (3, Entity.enemy
        { position := ⟨180, 390⟩, velocity := ⟨0, 0⟩, size := ⟨10, 10⟩, health := 100, speed := 3 }),
      (4, Entity.enemy
        { position := ⟨50, 100⟩, velocity := ⟨0, 0⟩, size := ⟨10, 10⟩, health := 100, speed := 3 }),
      (5, Entity.projectile
        { position := ⟨0, 0⟩, velocity := ⟨0, 0⟩, size := ⟨10, 10⟩, health := 100, speed := 5
          projectile := ⟨50, 300⟩ })]
    player := { (pristineWorld zeroRng).player with
      position := ⟨180, 400⟩, health := 25 } }

/-- The state after the two-step run from `c10World`. -/
def c10After : World := updateWorld fixedStep idleCtrl (updateWorld fixedStep idleCtrl c10World)

/-- The world after the first update step of a fresh boot session. -/
def c9Step1 : World := updateWorld fixedStep idleCtrl (bootWorld zeroRng)

/-- Step 2's state right after the entity pass (before its flush). -/
def c9Pass2 : World := passPhase fixedStep idleCtrl c9Step1

/-- Step 2's state right after its flush. -/
def c9Flush2 : World := flushRemovals c9Pass2

/-- The world after the second update step. -/
def c9Step2 : World := updateWorld fixedStep idleCtrl c9Step1

/-- The boot session run for 20 idle update steps (callback at 350 ms,
`delta = 0.35 s > 20/60`). -/
def c8Run : SchedState × List ℚ × List World :=
  runCallbacks idleInputs (bootSched zeroRng) [0, 350]

set_option maxRecDepth 4000000 in
/-- C3, failing input.  Queueing id 2 twice before one flush is not the same
as queueing it once: the flush runs `splice(2, 1)` once per queued copy, so
the double queue removes two slots from each observation array (lengths drop
from 4 to 2 instead of to 3), even though the `delete entities[2]` part is
idempotent (the final registries agree). -/
theorem flush_double_queue_bug :
    (flushRemovals { c3World with queued_entities_for_removal := [2, 2] }).player.enemies.length = 2 ∧
    (flushRemovals { c3World with queued_entities_for_removal := [2] }).player.enemies.length = 3 ∧
    (flushRemovals { c3World with queued_entities_for_removal := [2, 2] }).player.projectiles.length = 2 ∧
    (flushRemovals { c3World with queued_entities_for_removal := [2] }).player.projectiles.length = 3 ∧
    (flushRemovals { c3World with queued_entities_for_removal := [2, 2] }).entities =
      (flushRemovals { c3World with queued_entities_for_removal := [2] }).entities :=
  of_decide_eq_true (by with_unfolding_all rfl)

set_option maxRecDepth 8000000 in
/-- C4, counterexample.  With the fire button held continuously from update
step 79 on, the run fires a projectile at step 79 (`projCount = 1` after the
1325 ms callback, 79 steps in) and a second one at step 80, the very next
update step of the 1835 ms callback — only `fixedStep = 1/60 < 0.4` seconds
of simulated time after the first shot, because the gate compares
`masterTime` (the wall-clock callback timestamp) rather than simulated time.
This contradicts the claim that two firing attempts within 0.4 s of simulated
time produce only one projectile. -/
theorem two_shots_one_step_apart_cex :
    projCount c4Run79.1.w = 1 ∧
    c4Run79.1.w.loop_count = 79 ∧
    (c4Step80.2.2.map projCount).take 1 = [2] ∧
    (c4Step80.2.2.map (fun w => w.loop_count)).take 1 = [80] ∧
    (heldFireLate 78).action_1 = true ∧
    (heldFireLate 79).action_1 = true ∧
    fixedStep < 2 / 5 :=
  of_decide_eq_true (by with_unfolding_all rfl)

/-- C5, counterexample.  At player `(100, 400)` and enemy `(100, 300)` the
homing condition holds (vertical distance 100 in `(0, 150)`, rounded y a
multiple of 4), but the per-axis displacement the code produces
(`Math.sqrt(4.5) * 2 / 1.5 ≈ 2.83`) is not the claimed
`speed * sqrt(2) * 2 / 1.5 ≈ 5.66`. -/
theorem enemy_homing_speed_cex :
    (((400 : ℚ) - 300 < 150 ∧ (400 : ℚ) - 300 > 0 ∧ Int.tmod (jsRound 300) 4 = 0) ∧
      moveEnemy 3 ⟨100, 400⟩ ⟨100, 300⟩ = ⟨100 - sqrtNineHalves * 2 / 1.5, 300 + sqrtNineHalves * 2 / 1.5⟩) ∧
    (moveEnemy 3 ⟨100, 400⟩ ⟨100, 300⟩).x ≠ 100 - 3 * sqrtTwo * 2 / 1.5 ∧
    (moveEnemy 3 ⟨100, 400⟩ ⟨100, 300⟩).y ≠ 300 + 3 * sqrtTwo * 2 / 1.5 := by
  have hr : jsRound (300 : ℚ) = 300 := by norm_num [jsRound]
  have hcond : (400 : ℚ) - 300 < 150 ∧ (400 : ℚ) - 300 > 0 ∧
      Int.tmod (jsRound (300 : ℚ)) 4 = 0 := by
    refine ⟨by norm_num, by norm_num, ?_⟩
    rw [hr]
    decide
  have hj : jsSqrt ((3 : ℚ) * 3 / 2) = sqrtNineHalves := by
    have h92 : ((3 : ℚ) * 3) / 2 = 9 / 2 := by norm_num
    rw [h92, jsSqrt, if_pos rfl]
  have hmv : moveEnemy 3 ⟨100, 400⟩ ⟨100, 300⟩ =
      ⟨100 - sqrtNineHalves * 2 / 1.5, 300 + sqrtNineHalves * 2 / 1.5⟩ := by
    simp only [moveEnemy, hj]
    rw [if_pos hcond, if_neg (by norm_num : ¬ (100 : ℚ) > 100)]
  refine ⟨⟨hcond, hmv⟩, ?_, ?_⟩
  · rw [hmv]
    intro hx
    have h2 : sqrtNineHalves * 2 / 1.5 = 3 * sqrtTwo * 2 / 1.5 := by
      have hx2 : (100 : ℚ) - sqrtNineHalves * 2 / 1.5 = 100 - 3 * sqrtTwo * 2 / 1.5 := hx
      linarith
    rw [sqrtNineHalves, sqrtTwo] at h2
    norm_num at h2
  · rw [hmv]
    intro hy
    have h2 : sqrtNineHalves * 2 / 1.5 = 3 * sqrtTwo * 2 / 1.5 := by
      have hy2 : (300 : ℚ) + sqrtNineHalves * 2 / 1.5 = 300 + 3 * sqrtTwo * 2 / 1.5 := hy
      linarith
    rw [sqrtNineHalves, sqrtTwo] at h2
    norm_num at h2

set_option maxRecDepth 4000000 in
/-- C6, counterexample.  After its straight fall the enemy sits at
`(109, 203)` while the only published projectile is at `(100, 203)`:
no projectile is within the claimed 8-unit box (the x-distance is 9), yet
`Enemy.update` queues the enemy for removal, because the code's
enemy-versus-projectile check uses a 10-unit proximity. -/
theorem enemy_hit_radius_cex :
    moveEnemy 3 c6World.player.position c6Enemy.position = ⟨109, 203⟩ ∧
    (enemyUpdate fixedStep c6World 2 c6Enemy).queued_entities_for_removal = [2] ∧
    c6World.queued_entities_for_removal = [] ∧
    (∀ o ∈ c6World.player.projectiles, ∀ v : Vec2, o = some v →
      ¬ ((109 : ℚ) + 8 ≥ v.x ∧ (109 : ℚ) - 8 ≤ v.x ∧ (203 : ℚ) + 8 ≥ v.y ∧ (203 : ℚ) - 8 ≤ v.y)) :=
  of_decide_eq_true (by with_unfolding_all rfl)

set_option maxRecDepth 4000000 in
/-- C7, counterexample.  In a world whose player is dead (`health = 0`,
`enemyTimer = 19`), the next update step still spawns a brand-new enemy
(id 2, at `(30, -50)`) and increments the enemy-spawn counter — spawning is
not suppressed by death. -/
theorem dead_player_spawns_cex :
    c7World.player.health = 0 ∧
    (updateWorld fixedStep idleCtrl c7World).enemyCount = c7World.enemyCount + 1 ∧
    2 ∈ (updateWorld fixedStep idleCtrl c7World).entities ∧
    List.lookup 2 (updateWorld fixedStep idleCtrl c7World).store =
      some (Entity.enemy ⟨⟨30, -50⟩, ⟨0, 0⟩, ⟨10, 10⟩, 100, 3⟩) :=
  of_decide_eq_true (by with_unfolding_all rfl)

set_option maxRecDepth 8000000 in
/-- C8, counterexample.  After 20 idle update steps from boot, the enemy the
player spawned during step 20 is registered with its spawn position
`(30, -50)`: its y-coordinate is negative, outside the claimed
`[0, 410] × [0, 550]` box. -/
theorem spawned_enemy_out_of_bounds_cex :
    c8Run.1.w.loop_count = 20 ∧
    2 ∈ c8Run.1.w.entities ∧
    List.lookup 2 c8Run.1.w.store = some (Entity.enemy ⟨⟨30, -50⟩, ⟨0, 0⟩, ⟨10, 10⟩, 100, 3⟩) ∧
    ¬ ((0 : ℚ) ≤ -50) :=
  of_decide_eq_true (by with_unfolding_all rfl)

set_option maxRecDepth 8000000 in
/-- C9, counterexample.  At step 2 of the boot session the flush does process
the ghost spawner's queued id 1 (the queue right after the pass is `[1]`),
but `player.projectiles` is empty, so `splice(1, 1)` removes nothing from it
— contradicting the claim that every subsequent flush splices one element out
of `player.projectiles`. -/
theorem ghost_splice_empty_cex :
    c9Pass2.queued_entities_for_removal = [1] ∧
    c9Pass2.player.projectiles = [] ∧
    c9Flush2.player.projectiles = [] :=
  of_decide_eq_true (by with_unfolding_all rfl)

set_option maxRecDepth 8000000 in
/-- C9 (amended).  In the boot session: after the first update step the
enemy held in `enemy_spawner` (id 1) has been deleted from the registry yet
still lives in the heap and is still referenced; the step leaves `[1]` in the
removal queue (re-queued by the post-flush `enemy_spawner.update` call).  At
step 2 the flush deletes the already-absent key 1 (the registry is unchanged
by the flush) and splices the ghost's republished entry out of
`player.enemies` (length 2 → 1); the `splice(1, 1)` on `player.projectiles`
is a no-op while that array is empty.  After the flush the ghost updates
again: it republishes `player.enemies[1]`, re-queues id 1, and keeps falling
(y = 3 after step 1, y = 6 after step 2). -/
theorem ghost_spawner_each_step :
    (1 ∉ c9Step1.entities) ∧
    c9Step1.enemy_spawner = some 1 ∧
    List.lookup 1 c9Step1.store = some (Entity.enemy ⟨⟨30, 3⟩, ⟨0, 0⟩, ⟨10, 10⟩, 100, 3⟩) ∧
    c9Step1.queued_entities_for_removal = [1] ∧
    c9Pass2.queued_entities_for_removal = [1] ∧
    (1 ∉ c9Pass2.entities) ∧
    c9Flush2.entities = c9Pass2.entities ∧
    c9Pass2.player.enemies.length = 2 ∧
    c9Flush2.player.enemies.length = 1 ∧
    c9Step2.queued_entities_for_removal = [1] ∧
    c9Step2.player.enemies = [none, some ⟨30, 3⟩] ∧
    List.lookup 1 c9Step2.store = some (Entity.enemy ⟨⟨30, 6⟩, ⟨0, 0⟩, ⟨10, 10⟩, 100, 3⟩) :=
  of_decide_eq_true (by with_unfolding_all rfl)

set_option maxRecDepth 8000000 in
/-- C10.  With deferred removal, two enemies overlapping the player in the
same step each subtract 25 health: from 25 the player's health drops to -25
in one step; `isDead` (health ≤ 0) then holds, but the enemy and projectile
self-removal checks on player death compare health with 0 exactly, so the
far-away enemy (id 4) and projectile (id 5) survive the following step and
stay registered. -/
theorem double_hit_negative_health :
    c10World.player.health = 25 ∧
    (updateWorld fixedStep idleCtrl c10World).player.health = -25 ∧
    isDeadHealth (updateWorld fixedStep idleCtrl c10World).player.health = true ∧
    c10After.player.health = -25 ∧
    4 ∈ c10After.entities ∧
    5 ∈ c10After.entities ∧
    List.lookup 4 c10After.store = some (Entity.enemy ⟨⟨50, 106⟩, ⟨0, 0⟩, ⟨10, 10⟩, 100, 3⟩) ∧
    List.lookup 5 c10After.store =
      some (Entity.projectile ⟨⟨0, 0⟩, ⟨0, 0⟩, ⟨10, 10⟩, 100, 5, ⟨50, 290⟩⟩) :=
  of_decide_eq_true (by with_unfolding_all rfl)

/-
Structural lemmas: frames, folds and phase composition.
-/

lemma nodup_snoc_fresh {l : List ℕ} {a : ℕ} (h : l.Nodup) (hb : ∀ n ∈ l, n < a) :
    (l ++ [a]).Nodup := by
  rw [List.nodup_append]
  refine ⟨h, List.nodup_singleton a, ?_⟩
  intro n hn hm
  simp only [List.mem_singleton] at hm
  subst hm
  exact absurd (hb _ hn) (lt_irrefl _)

lemma mem_ite_singleton {q id : ℕ} {c : Prop} [Decidable c]
    (h : q ∈ if c then [id] else ([] : List ℕ)) : q = id := by
  split_ifs at h
  · simpa using h
  · simp at h

/-- Every branch of `updateEntityById` keeps `player_id`, `enemy_spawner`,
`masterTime` and `loop_count`, and never decreases `running_id`. -/
lemma updateEntity_frame (dt : ℚ) (v : World) (j : ℕ) :
    (updateEntityById dt v j).player_id = v.player_id ∧
    (updateEntityById dt v j).enemy_spawner = v.enemy_spawner ∧
    (updateEntityById dt v j).masterTime = v.masterTime ∧
    v.running_id ≤ (updateEntityById dt v j).running_id := by
  unfold updateEntityById
  split
  · rw [playerUpdate_eq]
    refine ⟨rfl, rfl, rfl, ?_⟩
    simp only []
    split_ifs <;> omega
  · split
    · rw [enemyUpdate_eq]; exact ⟨rfl, rfl, rfl, le_refl _⟩
    · rw [projectileUpdate_eq]; exact ⟨rfl, rfl, rfl, le_refl _⟩
    · exact ⟨rfl, rfl, rfl, le_refl _⟩

/-- The registry only grows during an entity update, by freshly allocated
ids. -/
lemma updateEntity_entities_shape (dt : ℚ) (v : World) (j : ℕ) :
    ∃ l, (updateEntityById dt v j).entities = v.entities ++ l ∧ l.Nodup ∧
      ∀ n ∈ l, v.running_id ≤ n ∧ n < (updateEntityById dt v j).running_id := by
  unfold updateEntityById
  split
  · rw [playerUpdate_eq]
    simp only []
    refine ⟨(if (v.player.enemyTimer + 1) % 20 = 0 then [v.running_id] else []) ++
      (if v.player.controller.action_1 = true ∧
          (if (v.player.enemyTimer + 1) % 40 = 0 ∧ v.player.projectileReady = false then true
            else v.player.projectileReady) = true ∧
          v.masterTime > v.projShotTime + 1 / 2 then
        [if (v.player.enemyTimer + 1) % 20 = 0 then v.running_id + 1 else v.running_id]
      else []), ?_, ?_, ?_⟩
    · split_ifs <;> simp
    · split_ifs <;> simp
    · intro n hn
      rcases List.mem_append.mp hn with h | h
      · have := mem_ite_singleton h
        subst this
        split_ifs at h ⊢ <;> simp_all <;> omega
      · have := mem_ite_singleton h
        subst this
        split_ifs at h ⊢ <;> simp_all <;> omega
  · split
    · rw [enemyUpdate_eq]; exact ⟨[], by simp, List.nodup_nil, by simp⟩
    · rw [projectileUpdate_eq]; exact ⟨[], by simp, List.nodup_nil, by simp⟩
    · exact ⟨[], by simp, List.nodup_nil, by simp⟩

/-- Ids appended to the removal queue during an entity update are the
updated entity's own id. -/
lemma updateEntity_queue_sub (dt : ℚ) (v : World) (j : ℕ) :
    ∀ q ∈ (updateEntityById dt v j).queued_entities_for_removal,
      q ∈ v.queued_entities_for_removal ∨ q = j := by
  unfold updateEntityById
  split
  · rw [playerUpdate_eq]
    intro q hq
    exact Or.inl hq
  · split
    · rw [enemyUpdate_eq]
      simp only []
      intro q hq
      rcases List.mem_append.mp hq with h | h
      · rcases List.mem_append.mp h with h | h
        · rcases List.mem_append.mp h with h | h
          · rcases List.mem_append.mp h with h | h
            · rcases List.mem_append.mp h with h | h
              · exact Or.inl h
              · exact Or.inr (mem_ite_singleton h)
            · exact Or.inr (mem_ite_singleton h)
          · exact Or.inr (mem_ite_singleton h)
        · exact Or.inr (List.eq_of_mem_replicate h)
      · exact Or.inr (mem_ite_singleton h)
    · rw [projectileUpdate_eq]
      simp only []
      intro q hq
      rcases List.mem_append.mp hq with h | h
      · rcases List.mem_append.mp h with h | h
        · rcases List.mem_append.mp h with h | h
          · exact Or.inl h
          · exact Or.inr (mem_ite_singleton h)
        · exact Or.inr (mem_ite_singleton h)
      · exact Or.inr (List.eq_of_mem_replicate h)
    · intro q hq; exact Or.inl hq

/-- Registry invariants are preserved and the registry set only grows across
the snapshot fold of the entity pass; queued ids stay below the allocator. -/
lemma pass_fold_reg (dt : ℚ) :
    ∀ (l : List ℕ) (v : World),
      (∀ j ∈ l, j < v.running_id) →
      v.entities.Nodup →
      (∀ n ∈ v.entities, n < v.running_id) →
      (∀ q ∈ v.queued_entities_for_removal, q < v.running_id) →
      ((l.foldl (updateEntityById dt) v).entities.Nodup ∧
       (∀ n ∈ (l.foldl (updateEntityById dt) v).entities,
          n < (l.foldl (updateEntityById dt) v).running_id) ∧
       (∀ q ∈ (l.foldl (updateEntityById dt) v).queued_entities_for_removal,
          q < (l.foldl (updateEntityById dt) v).running_id) ∧
       v.running_id ≤ (l.foldl (updateEntityById dt) v).running_id ∧
       (∀ n ∈ v.entities, n ∈ (l.foldl (updateEntityById dt) v).entities) ∧
       (l.foldl (updateEntityById dt) v).player_id = v.player_id ∧
       (l.foldl (updateEntityById dt) v).enemy_spawner = v.enemy_spawner) := by
  intro l
  induction l with
  | nil =>
    intro v _ h2 h3 h4
    exact ⟨h2, h3, h4, le_refl _, fun n hn => hn, rfl, rfl⟩
  | cons j t ih =>
    intro v hl h2 h3 h4
    rw [List.foldl_cons]
    obtain ⟨hpid, hsp, _, hrid⟩ := updateEntity_frame dt v j
    obtain ⟨lnew, hshape, hlnodup, hlfresh⟩ := updateEntity_entities_shape dt v j
    have hqsub := updateEntity_queue_sub dt v j
    have hjlt : j < v.running_id := hl j (List.mem_cons_self j t)
    -- invariants for the updated world
    have h2' : (updateEntityById dt v j).entities.Nodup := by
      rw [hshape, List.nodup_append]
      refine ⟨h2, hlnodup, ?_⟩
      intro n hn hm
      exact absurd ((hlfresh n hm).1) (not_le.mpr (lt_of_lt_of_le (h3 n hn) (le_refl _)))
    have h3' : ∀ n ∈ (updateEntityById dt v j).entities,
        n < (updateEntityById dt v j).running_id := by
      intro n hn
      rw [hshape] at hn
      rcases List.mem_append.mp hn with h | h
      · exact lt_of_lt_of_le (h3 n h) hrid
      · exact (hlfresh n h).2
    have h4' : ∀ q ∈ (updateEntityById dt v j).queued_entities_for_removal,
        q < (updateEntityById dt v j).running_id := by
      intro q hq
      rcases hqsub q hq with h | h
      · exact lt_of_lt_of_le (h4 q h) hrid
      · subst h; exact lt_of_lt_of_le hjlt hrid
    have hl' : ∀ j2 ∈ t, j2 < (updateEntityById dt v j).running_id :=
      fun j2 hj2 => lt_of_lt_of_le (hl j2 (List.mem_cons_of_mem j hj2)) hrid
    obtain ⟨c1, c2, c3, c4, c5, c6, c7⟩ := ih (updateEntityById dt v j) hl' h2' h3' h4'
    refine ⟨c1, c2, c3, le_trans hrid c4, ?_, by rw [c6, hpid], by rw [c7, hsp]⟩
    intro n hn
    exact c5 n (by rw [hshape]; exact List.mem_append_left _ hn)

/-- Queue provenance across the pass: every queued id was already queued or
is one of the snapshot ids. -/
lemma pass_fold_queue (dt : ℚ) :
    ∀ (l : List ℕ) (v : World),
      ∀ q ∈ (l.foldl (updateEntityById dt) v).queued_entities_for_removal,
        q ∈ v.queued_entities_for_removal ∨ q ∈ l := by
  intro l
  induction l with
  | nil => intro v q hq; exact Or.inl hq
  | cons j t ih =>
    intro v q hq
    rw [List.foldl_cons] at hq
    rcases ih (updateEntityById dt v j) q hq with h | h
    · rcases updateEntity_queue_sub dt v j q h with h2 | h2
      · exact Or.inl h2
      · exact Or.inr (by simp [h2])
    · exact Or.inr (List.mem_cons_of_mem j h)

/-- The registry only shrinks across the removal fold, its `Nodup` is kept,
every processed id ends up outside it, and everything else is unchanged. -/
lemma foldl_removeStep_spec :
    ∀ (q : List ℕ) (v : World),
      ((∀ n ∈ (q.foldl removeStep v).entities, n ∈ v.entities) ∧
       (v.entities.Nodup → (q.foldl removeStep v).entities.Nodup) ∧
       (v.entities.Nodup → ∀ id ∈ q, id ∉ (q.foldl removeStep v).entities) ∧
       (q.foldl removeStep v).running_id = v.running_id ∧
       (q.foldl removeStep v).store = v.store ∧
       (q.foldl removeStep v).player_id = v.player_id ∧
       (q.foldl removeStep v).enemy_spawner = v.enemy_spawner ∧
       (q.foldl removeStep v).queued_entities_for_removal = v.queued_entities_for_removal ∧
       (q.foldl removeStep v).player.position = v.player.position ∧
       (q.foldl removeStep v).player.health = v.player.health ∧
       (q.foldl removeStep v).player.controller = v.player.controller) := by
  intro q
  induction q with
  | nil =>
    intro v
    exact ⟨fun n hn => hn, fun h => h, fun _ id hid => absurd hid (List.not_mem_nil id),
      rfl, rfl, rfl, rfl, rfl, rfl, rfl, rfl⟩
  | cons a t ih =>
    intro v
    rw [List.foldl_cons]
    obtain ⟨c1, c2, c3, c4, c5, c6, c7, c8, c9, c10, c11⟩ := ih (removeStep v a)
    have hsub : ∀ n ∈ (removeStep v a).entities, n ∈ v.entities := by
      intro n hn
      exact List.mem_of_mem_erase hn
    have hnd : v.entities.Nodup → (removeStep v a).entities.Nodup := by
      intro h
      exact h.erase a
    refine ⟨fun n hn => hsub n (c1 n hn), fun h => c2 (hnd h), ?_, c4.trans rfl, c5, c6, c7, c8,
      c9, c10, c11⟩
    intro h id hid
    rcases List.mem_cons.mp hid with h2 | h2
    · subst h2
      intro hmem
      have h3 := c1 id hmem
      simp only [removeStep] at h3
      exact (List.Nodup.not_mem_erase h) h3
    · exact c3 (hnd h) id h2

/-- Projections of `flushRemovals` through its removal fold. -/
lemma flushRemovals_eq (v : World) :
    flushRemovals v =
      { v.queued_entities_for_removal.foldl removeStep v with queued_entities_for_removal := [] } :=
  rfl

lemma storeSet_keys (s : List (ℕ × Entity)) (id : ℕ) (ent : Entity) :
    (storeSet s id ent).map Prod.fst = s.map Prod.fst := by
  induction s with
  | nil => rfl
  | cons p t ih =>
    simp only [storeSet, List.map_cons] at ih ⊢
    by_cases h : p.1 = id <;> simp [h, ih]

lemma storeSet_not_mem (s : List (ℕ × Entity)) (id : ℕ) (ent : Entity)
    (h : id ∉ s.map Prod.fst) : storeSet s id ent = s := by
  induction s with
  | nil => rfl
  | cons p t ih =>
    simp only [List.map_cons, List.mem_cons, not_or] at h
    have hstep : storeSet (p :: t) id ent =
        (if p.1 = id then (id, ent) else p) :: storeSet t id ent := rfl
    rw [hstep, if_neg (fun he => h.1 he.symm), ih h.2]

lemma filter_storeSet_length (s : List (ℕ × Entity)) (id : ℕ) (ent0 ent : Entity)
    (hnd : (s.map Prod.fst).Nodup) (hlk : List.lookup id s = some ent0)
    (hsame : isProjEntry (id, ent0) = isProjEntry (id, ent)) :
    ((storeSet s id ent).filter isProjEntry).length = (s.filter isProjEntry).length := by
  induction s with
  | nil => simp [List.lookup] at hlk
  | cons p t ih =>
    obtain ⟨p1, p2⟩ := p
    simp only [List.map_cons, List.nodup_cons] at hnd
    by_cases h : p1 = id
    · subst h
      have hlk2 : ent0 = p2 := by
        rw [List.lookup_cons] at hlk
        simp at hlk
        exact hlk.symm
      subst hlk2
      have hset : storeSet t p1 ent = t :=
        storeSet_not_mem t p1 ent hnd.1
      have hstep : storeSet ((p1, ent0) :: t) p1 ent =
          (if p1 = p1 then (p1, ent) else (p1, ent0)) :: storeSet t p1 ent := rfl
      rw [hstep, if_pos rfl, hset]
      rw [List.filter_cons, List.filter_cons]
      by_cases hp : isProjEntry (p1, ent0) = true
      · rw [if_pos (by rw [← hsame]; exact hp), if_pos hp]
        simp
      · rw [if_neg (by rw [← hsame]; exact hp), if_neg hp]
    · have hne : (id == p1) = false := beq_eq_false_iff_ne.mpr (fun he => h he.symm)
      have hlk2 : List.lookup id t = some ent0 := by
        rw [List.lookup_cons, hne] at hlk
        simpa using hlk
      have hstep : storeSet ((p1, p2) :: t) id ent =
          (if p1 = id then (id, ent) else (p1, p2)) :: storeSet t id ent := rfl
      rw [hstep, if_neg h]
      rw [List.filter_cons, List.filter_cons]
      by_cases hp : isProjEntry (p1, p2) = true
      · rw [if_pos hp, if_pos hp]
        simp [ih hnd.2 hlk2]
      · rw [if_neg hp, if_neg hp]
        exact ih hnd.2 hlk2

lemma fireCond_iff (v : World) :
    (v.player.controller.action_1 = true ∧
     (if (v.player.enemyTimer + 1) % 40 = 0 ∧ v.player.projectileReady = false then true
      else v.player.projectileReady) = true ∧
     v.masterTime > v.projShotTime + 1 / 2) ↔ fireCond v v.player.controller := by
  unfold fireCond
  constructor
  · rintro ⟨ha, hb, hc⟩
    refine ⟨ha, ?_, hc⟩
    split_ifs at hb with h
    · rcases Bool.eq_false_or_eq_true v.player.projectileReady with h2 | h2
      · exact Or.inl h2
      · exact Or.inr ⟨h.1, h2⟩
    · exact Or.inl hb

  · rintro ⟨ha, hb, hc⟩
    refine ⟨ha, ?_, hc⟩
    split_ifs with h
    · rfl
    · rcases hb with h2 | h2
      · exact h2
      · exact absurd h2 (by tauto)

/-- `Player.update` creates exactly one projectile body when the fire
condition holds, and none otherwise. -/
lemma playerUpdate_projCount (dt : ℚ) (v : World) :
    projCount (playerUpdate dt v) =
      projCount v + (if fireCond v v.player.controller then 1 else 0) := by
  rw [playerUpdate_eq]
  unfold projCount
  simp only [fireCond_iff]
  by_cases hs : (v.player.enemyTimer + 1) % 20 = 0 <;>
  by_cases hf : fireCond v v.player.controller <;>
    simp [hs, hf, List.filter_append, isProjEntry]

/-- `Player.update` increments the enemy-spawn counter exactly on multiples
of 20 of the incremented timer. -/
lemma playerUpdate_enemyCount (dt : ℚ) (v : World) :
    (playerUpdate dt v).enemyCount =
      v.enemyCount + (if (v.player.enemyTimer + 1) % 20 = 0 then 1 else 0) := by
  rw [playerUpdate_eq]
  by_cases hs : (v.player.enemyTimer + 1) % 20 = 0 <;> simp [hs]

/-- `Player.update` appends only fresh ids to the heap. -/
lemma playerUpdate_store_keys (dt : ℚ) (v : World) :
    ∃ l, (playerUpdate dt v).store.map Prod.fst = v.store.map Prod.fst ++ l ∧ l.Nodup ∧
      ∀ n ∈ l, v.running_id ≤ n ∧ n < (playerUpdate dt v).running_id := by
  rw [playerUpdate_eq]
  simp only []
  refine ⟨(if (v.player.enemyTimer + 1) % 20 = 0 then [v.running_id] else []) ++
    (if v.player.controller.action_1 = true ∧
        (if (v.player.enemyTimer + 1) % 40 = 0 ∧ v.player.projectileReady = false then true
          else v.player.projectileReady) = true ∧
        v.masterTime > v.projShotTime + 1 / 2 then
      [if (v.player.enemyTimer + 1) % 20 = 0 then v.running_id + 1 else v.running_id]
    else []), ?_, ?_, ?_⟩
  · split_ifs <;> simp
  · split_ifs <;> simp
  · intro n hn
    rcases List.mem_append.mp hn with h | h
    · have := mem_ite_singleton h
      subst this
      split_ifs at h ⊢ <;> simp_all <;> omega
    · have := mem_ite_singleton h
      subst this
      split_ifs at h ⊢ <;> simp_all <;> omega

/-- A non-player entity update leaves the fire-relevant player state, the
counters, the allocator and the heap keys unchanged, and changes no
projectile count (given unique heap keys). -/
lemma updateEntity_nopid (dt : ℚ) (v : World) (j : ℕ) (hj : ¬ j = v.player_id) :
    (updateEntityById dt v j).player.controller = v.player.controller ∧
    (updateEntityById dt v j).player.enemyTimer = v.player.enemyTimer ∧
    (updateEntityById dt v j).player.projectileReady = v.player.projectileReady ∧
    (updateEntityById dt v j).projShotTime = v.projShotTime ∧
    (updateEntityById dt v j).enemyCount = v.enemyCount ∧
    (updateEntityById dt v j).player.position = v.player.position ∧
    (updateEntityById dt v j).running_id = v.running_id ∧
    (updateEntityById dt v j).store.map Prod.fst = v.store.map Prod.fst ∧
    (updateEntityById dt v j).player_id = v.player_id ∧
    (updateEntityById dt v j).masterTime = v.masterTime ∧
    ((v.store.map Prod.fst).Nodup → projCount (updateEntityById dt v j) = projCount v) := by
  unfold updateEntityById
  rw [if_neg hj]
  split
  · rename_i e heq
    rw [enemyUpdate_eq]
    refine ⟨rfl, rfl, rfl, rfl, rfl, rfl, rfl, storeSet_keys _ _ _, rfl, rfl, ?_⟩
    intro hnd
    exact filter_storeSet_length v.store j (Entity.enemy e) _ hnd heq rfl
  · rename_i pr heq
    rw [projectileUpdate_eq]
    refine ⟨rfl, rfl, rfl, rfl, rfl, rfl, rfl, storeSet_keys _ _ _, rfl, rfl, ?_⟩
    intro hnd
    exact filter_storeSet_length v.store j (Entity.projectile pr) _ hnd heq rfl
  · exact ⟨rfl, rfl, rfl, rfl, rfl, rfl, rfl, rfl, rfl, rfl, fun _ => rfl⟩

/-- Folding non-player updates over part of the snapshot changes neither the
projectile count nor any fire-relevant player state. -/
lemma pass_fold_nopid (dt : ℚ) :
    ∀ (l : List ℕ) (v : World),
      (∀ j ∈ l, ¬ j = v.player_id) →
      ((l.foldl (updateEntityById dt) v).player.controller = v.player.controller ∧
       (l.foldl (updateEntityById dt) v).player.enemyTimer = v.player.enemyTimer ∧
       (l.foldl (updateEntityById dt) v).player.projectileReady = v.player.projectileReady ∧
       (l.foldl (updateEntityById dt) v).projShotTime = v.projShotTime ∧
       (l.foldl (updateEntityById dt) v).enemyCount = v.enemyCount ∧
       (l.foldl (updateEntityById dt) v).running_id = v.running_id ∧
       (l.foldl (updateEntityById dt) v).store.map Prod.fst = v.store.map Prod.fst ∧
       (l.foldl (updateEntityById dt) v).player_id = v.player_id ∧
       (l.foldl (updateEntityById dt) v).masterTime = v.masterTime ∧
       ((v.store.map Prod.fst).Nodup →
         projCount (l.foldl (updateEntityById dt) v) = projCount v)) := by
  intro l
  induction l with
  | nil =>
    intro v _
    exact ⟨rfl, rfl, rfl, rfl, rfl, rfl, rfl, rfl, rfl, fun _ => rfl⟩
  | cons j t ih =>
    intro v hl
    rw [List.foldl_cons]
    have hj : ¬ j = v.player_id := hl j (List.mem_cons_self j t)
    obtain ⟨n1, n2, n3, n4, n5, n6, n7, n8, n9, n10, n11⟩ := updateEntity_nopid dt v j hj
    have hl2 : ∀ j2 ∈ t, ¬ j2 = (updateEntityById dt v j).player_id := by
      intro j2 hj2
      rw [n9]
      exact hl j2 (List.mem_cons_of_mem j hj2)
    obtain ⟨c1, c2, c3, c4, c5, c6, c7, c8, c9, c10⟩ :=
      ih (updateEntityById dt v j) hl2
    refine ⟨c1.trans n1, c2.trans n2, c3.trans n3, c4.trans n4, c5.trans n5, c6.trans n7,
      c7.trans n8, c8.trans n9, c9.trans n10, ?_⟩
    intro hnd
    have hnd2 : ((updateEntityById dt v j).store.map Prod.fst).Nodup := by rw [n8]; exact hnd
    rw [c10 hnd2, n11 hnd]

/-- The fire condition only depends on the fire-relevant player state. -/
lemma fireCond_congr (v1 v2 : World)
    (h1 : v1.player.controller = v2.player.controller)
    (h2 : v1.player.enemyTimer = v2.player.enemyTimer)
    (h3 : v1.player.projectileReady = v2.player.projectileReady)
    (h4 : v1.projShotTime = v2.projShotTime)
    (h5 : v1.masterTime = v2.masterTime) :
    fireCond v1 v1.player.controller ↔ fireCond v2 v2.player.controller := by
  unfold fireCond
  rw [h1, h2, h3, h4, h5]

/-- Across the whole entity pass the projectile count grows by exactly one
when the pre-step fire condition holds, and stays unchanged otherwise; the
enemy-spawn counter likewise follows the player's timer. -/
lemma pass_fold_projCount (dt : ℚ) (l : List ℕ) (v : World)
    (hnd : l.Nodup) (hmem : v.player_id ∈ l)
    (hkeys : (v.store.map Prod.fst).Nodup)
    (hkb : ∀ n ∈ v.store.map Prod.fst, n < v.running_id) :
    (projCount (l.foldl (updateEntityById dt) v) =
      projCount v + (if fireCond v v.player.controller then 1 else 0)) ∧
    ((l.foldl (updateEntityById dt) v).enemyCount =
      v.enemyCount + (if (v.player.enemyTimer + 1) % 20 = 0 then 1 else 0)) ∧
    ((l.foldl (updateEntityById dt) v).store.map Prod.fst).Nodup := by
  obtain ⟨l1, l2, rfl⟩ := List.append_of_mem hmem
  have hnd1 : v.player_id ∉ l1 ∧ v.player_id ∉ l2 := by
    rw [List.nodup_append] at hnd
    obtain ⟨ha, hb, hc⟩ := hnd
    exact ⟨fun hm => hc hm (List.mem_cons_self _ _),
      (List.nodup_cons.mp hb).1⟩
  have hl1 : ∀ j ∈ l1, ¬ j = v.player_id := fun j hj he => hnd1.1 (he ▸ hj)
  rw [List.foldl_append, List.foldl_cons]
  -- phase 1: non-player prefix
  obtain ⟨a1, a2, a3, a4, a5, a6, a7, a8, a9, a10⟩ := pass_fold_nopid dt l1 v hl1
  set v1 := l1.foldl (updateEntityById dt) v with hv1
  -- phase 2: the player update
  have hpid1 : v.player_id = v1.player_id := a8.symm
  have hplayer : updateEntityById dt v1 v.player_id = playerUpdate dt v1 := by
    unfold updateEntityById
    rw [if_pos hpid1]
  rw [hplayer]
  set v2 := playerUpdate dt v1 with hv2
  -- phase 3: non-player suffix
  have hpid2 : v2.player_id = v.player_id := by
    rw [hv2, playerUpdate_eq]
    simp only []
    exact a8
  have hl2 : ∀ j ∈ l2, ¬ j = v2.player_id := by
    intro j hj he
    rw [hpid2] at he
    exact hnd1.2 (he ▸ hj)
  obtain ⟨b1, b2, b3, b4, b5, b6, b7, b8, b9, b10⟩ := pass_fold_nopid dt l2 v2 hl2
  -- store keys of v2
  obtain ⟨lk, hlk, hlknd, hlkb⟩ := playerUpdate_store_keys dt v1
  have hkeys1 : (v1.store.map Prod.fst).Nodup := by rw [a7]; exact hkeys
  have hkb1 : ∀ n ∈ v1.store.map Prod.fst, n < v1.running_id := by
    rw [a7, a6]; exact hkb
  have hkeys2 : (v2.store.map Prod.fst).Nodup := by
    rw [hv2, hlk, List.nodup_append]
    refine ⟨hkeys1, hlknd, ?_⟩
    intro n hn hm
    exact absurd (hlkb n hm).1 (not_le.mpr (hkb1 n hn))
  constructor
  · rw [b10 hkeys2]
    rw [hv2, playerUpdate_projCount dt v1]
    rw [a10 hkeys]
    congr 1
    rw [if_congr (fireCond_congr v1 v a1 a2 a3 a4 a9) rfl rfl]
  constructor
  · rw [b5]
    rw [hv2, playerUpdate_enemyCount dt v1]
    rw [a5, a2]
  · rw [b7]
    exact hkeys2

/-- The removal fold also keeps the counters and fire-relevant state. -/
lemma foldl_removeStep_more :
    ∀ (q : List ℕ) (v : World),
      (q.foldl removeStep v).enemyCount = v.enemyCount ∧
      (q.foldl removeStep v).player.enemyTimer = v.player.enemyTimer ∧
      (q.foldl removeStep v).player.projectileReady = v.player.projectileReady ∧
      (q.foldl removeStep v).projShotTime = v.projShotTime ∧
      (q.foldl removeStep v).masterTime = v.masterTime := by
  intro q
  induction q with
  | nil => intro v; exact ⟨rfl, rfl, rfl, rfl, rfl⟩
  | cons a t ih =>
    intro v
    rw [List.foldl_cons]
    obtain ⟨c1, c2, c3, c4, c5⟩ := ih (removeStep v a)
    exact ⟨c1, c2, c3, c4, c5⟩

/-- Every entity update leaves the polled controller unchanged. -/
lemma updateEntity_controller (dt : ℚ) (v : World) (j : ℕ) :
    (updateEntityById dt v j).player.controller = v.player.controller := by
  unfold updateEntityById
  split
  · rw [playerUpdate_eq]
  · split
    · rw [enemyUpdate_eq]
    · rw [projectileUpdate_eq]
    · rfl

lemma fold_controller (dt : ℚ) :
    ∀ (l : List ℕ) (v : World),
      (l.foldl (updateEntityById dt) v).player.controller = v.player.controller := by
  intro l
  induction l with
  | nil => intro v; rfl
  | cons j t ih =>
    intro v
    rw [List.foldl_cons, ih, updateEntity_controller]

/-- The flush leaves the polled controller unchanged. -/
lemma flushRemovals_controller (v : World) :
    (flushRemovals v).player.controller = v.player.controller := by
  rw [flushRemovals_eq]
  obtain ⟨_, _, _, _, _, _, _, _, _, _, c11⟩ :=
    foldl_removeStep_spec v.queued_entities_for_removal v
  exact c11

/-- The controller polled at the start of `update` is still in place at the
restart check. -/
lemma updateWorldPre_controller (dt : ℚ) (ctrl : Controller) (w : World) :
    (updateWorldPre dt ctrl w).player.controller = ctrl := by
  rw [updateWorldPre]
  rcases hcase : (flushRemovals (passPhase dt ctrl w)).enemy_spawner with _ | sid <;>
    simp only [hcase]
  · rw [flushRemovals_controller, passPhase, fold_controller]
  · rw [updateEntity_controller, flushRemovals_controller, passPhase, fold_controller]

/-- The number of fixed steps a callback runs depends only on `delta`, never
on the world, the inputs, or the player's death state. -/
lemma runSteps_length_eq (i1 : ℕ → Controller) (c1 : ℚ) :
    ∀ (st : SchedState) (delta : ℚ), ∀ (i2 : ℕ → Controller) (c2 : ℚ) (s2 : SchedState),
      (runSteps i1 c1 st delta).2.1.length = (runSteps i2 c2 s2 delta).2.1.length := by
  intro st delta
  induction st, delta using runSteps.induct i1 c1 with
  | case1 st delta h w w2 st2 ih =>
    intro i2 c2 s2
    rw [runSteps, dif_pos h]
    conv_rhs => rw [runSteps, dif_pos h]
    simp only [List.length_cons]
    exact congrArg Nat.succ (ih i2 c2 _)
  | case2 st delta h =>
    intro i2 c2 s2
    rw [runSteps, dif_neg h]
    conv_rhs => rw [runSteps, dif_neg h]

/-- Projections of `flushRemovals` needed for the counting arguments. -/
lemma flushRemovals_facts (v : World) :
    (flushRemovals v).store = v.store ∧
    (flushRemovals v).enemyCount = v.enemyCount ∧
    (flushRemovals v).player_id = v.player_id ∧
    (flushRemovals v).enemy_spawner = v.enemy_spawner ∧
    (flushRemovals v).player.health = v.player.health := by
  rw [flushRemovals_eq]
  obtain ⟨_, _, _, _, f5, f6, f7, _, _, f10, _⟩ :=
    foldl_removeStep_spec v.queued_entities_for_removal v
  obtain ⟨m1, _, _, _, _⟩ := foldl_removeStep_more v.queued_entities_for_removal v
  exact ⟨f5, m1, f6, f7, f10⟩

/-- Counting effects of `update(delta_time)` up to the restart check: the
projectile count grows by one exactly when the pre-step fire condition
holds, and `enemyCount` increments exactly when the incremented `enemyTimer`
is a multiple of 20 — whether or not the player is dead. -/
lemma updateWorldPre_counts (dt : ℚ) (ctrl : Controller) (w : World)
    (hwf : WF w) (hmem : w.player_id ∈ w.entities)
    (hsp : ∀ sid ∈ w.enemy_spawner, ¬ sid = w.player_id) :
    projCount (updateWorldPre dt ctrl w) =
      projCount w + (if fireCond w ctrl then 1 else 0) ∧
    (updateWorldPre dt ctrl w).enemyCount =
      w.enemyCount + (if (w.player.enemyTimer + 1) % 20 = 0 then 1 else 0) := by
  obtain ⟨hnd, hsnd, hent, hst, hque, hpid, hspw⟩ := hwf
  set w0 : World := { w with player := { w.player with controller := ctrl } } with hw0
  have hkb0 : ∀ n ∈ w0.store.map Prod.fst, n < w0.running_id := by
    intro n hn
    obtain ⟨p, hp, rfl⟩ := List.mem_map.mp hn
    exact hst p hp
  obtain ⟨pc1, pc2, pc3⟩ := pass_fold_projCount dt w0.entities w0 hnd hmem hsnd hkb0
  obtain ⟨r1, r2, r3, r4, r5, r6, r7⟩ :=
    pass_fold_reg dt w0.entities w0 hent hnd hent hque
  set u1 := w0.entities.foldl (updateEntityById dt) w0 with hu1
  obtain ⟨g1, g2, g3, g4, g5⟩ := flushRemovals_facts u1
  set u2 := flushRemovals u1 with hu2
  have hcount2 : projCount u2 = projCount u1 := by
    unfold projCount
    rw [g1]
  have hfire0 : (if fireCond w0 w0.player.controller then 1 else 0) =
      (if fireCond w ctrl then 1 else 0) := by
    rfl
  have hpc0 : projCount w0 = projCount w := rfl
  have hkeys2 : (u2.store.map Prod.fst).Nodup := by
    rw [g1]
    exact pc3
  have hM : updateWorldPre dt ctrl w =
      (match u2.enemy_spawner with
       | some sid => updateEntityById dt u2 sid
       | none => u2) := rfl
  rw [hM]
  split
  · rename_i sid hcase
    have hmemS : sid ∈ w.enemy_spawner := by
      have hmemS0 : sid ∈ w0.enemy_spawner := by
        rw [← r7, ← g4, hcase]
        rfl
      exact hmemS0
    have hsid : ¬ sid = u2.player_id := by
      rw [g3, r6]
      show ¬ sid = w.player_id
      exact hsp sid hmemS
    obtain ⟨_, _, _, _, n5, _, _, _, _, _, n11⟩ := updateEntity_nopid dt u2 sid hsid
    constructor
    · rw [n11 hkeys2, hcount2, pc1, hfire0, hpc0]
    · rw [n5, g2, pc2]
  · constructor
    · rw [hcount2, pc1, hfire0, hpc0]
    · rw [g2, pc2]

/-- C4 (amended).  A projectile is spawned during an update step exactly
when `controller.action_1` is held, `projectileReady` is armed at the moment
of the check (either already armed or re-armed that tick because the
incremented `enemyTimer` is a multiple of 40), and `masterTime` — the
wall-clock timestamp of the current animation-frame callback, not the
simulated time — exceeds the recorded `projShotTime` by more than 0.5
seconds.  Stated by counting projectile bodies in the heap across one
`update` call (with the restart branch not taken). -/
theorem projectile_fire_gate (dt : ℚ) (ctrl : Controller) (w : World)
    (hwf : WF w) (hmem : w.player_id ∈ w.entities)
    (hsp : ∀ sid ∈ w.enemy_spawner, ¬ sid = w.player_id)
    (hnr : ¬ (isDeadHealth (updateWorldPre dt ctrl w).player.health = true ∧
      (updateWorldPre dt ctrl w).player.controller.action_1 = true)) :
    projCount (updateWorld dt ctrl w) = projCount w + (if fireCond w ctrl then 1 else 0) := by
  rw [updateWorld]
  rw [if_neg hnr]
  exact (updateWorldPre_counts dt ctrl w hwf hmem hsp).1

/-- C7 (amended).  When the player's health is 0 and the fire button is not
pressed: the update step still runs in full — in particular `Player.update`
still spawns an enemy whenever the incremented timer is a multiple of 20 and
still increments `enemyCount` — while suppression happens only in the
presentation layer: the HUD shows 0 for time-alive, enemy count and total
score, and `draw` renders the game-over overlay; the scheduler keeps running
the same number of update steps per callback regardless of the world or the
inputs, so the simulation and input polling continue until a restart. -/
theorem death_suppression (dt : ℚ) (ctrl : Controller) (w : World)
    (hwf : WF w) (hmem : w.player_id ∈ w.entities)
    (hsp : ∀ sid ∈ w.enemy_spawner, ¬ sid = w.player_id)
    (hdead : w.player.health = 0) (hact : ctrl.action_1 = false) :
    (updateWorld dt ctrl w).enemyCount =
      w.enemyCount + (if (w.player.enemyTimer + 1) % 20 = 0 then 1 else 0) ∧
    (hudFor w).timeAliveShown = 0 ∧
    (hudFor w).enemyCountShown = 0 ∧
    (hudFor w).totalScoreShown = 0 ∧
    gameOverShown w = true ∧
    (∀ (i1 i2 : ℕ → Controller) (c1 c2 : ℚ) (s1 s2 : SchedState) (delta : ℚ),
      (runSteps i1 c1 s1 delta).2.1.length = (runSteps i2 c2 s2 delta).2.1.length) := by
  refine ⟨?_, ?_, ?_, ?_, ?_, ?_⟩
  · rw [updateWorld]
    rw [if_neg ?_]
    · exact (updateWorldPre_counts dt ctrl w hwf hmem hsp).2
    · rintro ⟨_, h2⟩
      rw [updateWorldPre_controller, hact] at h2
      exact Bool.false_ne_true h2
  · simp [hudFor, hdead]
  · simp [hudFor, hdead]
  · simp [hudFor, hdead]
  · simp [gameOverShown, isDeadHealth, hdead]
  · intro i1 i2 c1 c2 s1 s2 delta
    exact runSteps_length_eq i1 c1 s1 delta i2 c2 s2

/-- A minimal armed world: the registered player alone, `projectileReady`
set, and the wall clock one second past the last shot. -/
def c4w : World :=
  { pristineWorld zeroRng with
    running_id := 1
    entities := [0]
    masterTime := 1
    player := { (pristineWorld zeroRng).player with
      position := ⟨180, 400⟩, projectileReady := true } }

/-- C5 (amended).  When the player's y minus the enemy's y is strictly
between 0 and 150 and the enemy's rounded y is a multiple of 4, the enemy
moves diagonally toward the player's x-side by
`Math.sqrt((speed * speed) / 2) * 2 / 1.5` per axis; with the enemies'
`speed = 3` that is `Math.sqrt(4.5) * 2 / 1.5 ≈ 2.83`, i.e.
`speed * sqrt(2) / 1.5` — not the claimed `speed * sqrt(2) * 2 / 1.5 ≈ 5.66`;
otherwise it falls straight down by `speed`. -/
theorem enemy_homing_movement (espeed : ℚ) (ppos epos : Vec2)
    (hcond : ppos.y - epos.y < 150 ∧ ppos.y - epos.y > 0 ∧
      Int.tmod (jsRound epos.y) 4 = 0) :
    (moveEnemy espeed ppos epos =
      if ppos.x > epos.x then
        ⟨epos.x + jsSqrt ((espeed * espeed) / 2) * 2 / 1.5,
         epos.y + jsSqrt ((espeed * espeed) / 2) * 2 / 1.5⟩
      else
        ⟨epos.x - jsSqrt ((espeed * espeed) / 2) * 2 / 1.5,
         epos.y + jsSqrt ((espeed * espeed) / 2) * 2 / 1.5⟩) ∧
    (espeed = 3 → jsSqrt ((espeed * espeed) / 2) * 2 / 1.5 = sqrtNineHalves * 2 / 1.5) ∧
    (∀ (espeed2 : ℚ) (ppos2 epos2 : Vec2),
      ¬ (ppos2.y - epos2.y < 150 ∧ ppos2.y - epos2.y > 0 ∧
          Int.tmod (jsRound epos2.y) 4 = 0) →
      moveEnemy espeed2 ppos2 epos2 = ⟨epos2.x, epos2.y + espeed2⟩) := by
  refine ⟨?_, ?_, ?_⟩
  · simp only [moveEnemy]
    rw [if_pos hcond]
  · intro h
    subst h
    have h92 : ((3 : ℚ) * 3) / 2 = 9 / 2 := by norm_num
    rw [h92, jsSqrt, if_pos rfl]
  · intro espeed2 ppos2 epos2 h
    simp only [moveEnemy]
    rw [if_neg h]

/-- Witness for the homing-movement theorem: player at `(200, 400)`, enemy
at `(100, 300)`, the enemy speed the program uses. -/
theorem enemy_homing_movement_witness :
    (((Vec2.mk 200 400).y - (Vec2.mk 100 300).y < 150 ∧
      (Vec2.mk 200 400).y - (Vec2.mk 100 300).y > 0 ∧
      Int.tmod (jsRound (Vec2.mk 100 300).y) 4 = 0) ∧
     ((moveEnemy 3 ⟨200, 400⟩ ⟨100, 300⟩ =
        if (Vec2.mk 200 400).x > (Vec2.mk 100 300).x then
          ⟨(Vec2.mk 100 300).x + jsSqrt (((3 : ℚ) * 3) / 2) * 2 / 1.5,
           (Vec2.mk 100 300).y + jsSqrt (((3 : ℚ) * 3) / 2) * 2 / 1.5⟩
        else
          ⟨(Vec2.mk 100 300).x - jsSqrt (((3 : ℚ) * 3) / 2) * 2 / 1.5,
           (Vec2.mk 100 300).y + jsSqrt (((3 : ℚ) * 3) / 2) * 2 / 1.5⟩) ∧
      ((3 : ℚ) = 3 → jsSqrt (((3 : ℚ) * 3) / 2) * 2 / 1.5 = sqrtNineHalves * 2 / 1.5) ∧
      (∀ (espeed2 : ℚ) (ppos2 epos2 : Vec2),
        ¬ (ppos2.y - epos2.y < 150 ∧ ppos2.y - epos2.y > 0 ∧
            Int.tmod (jsRound epos2.y) 4 = 0) →
        moveEnemy espeed2 ppos2 epos2 = ⟨epos2.x, epos2.y + espeed2⟩))) := by
  have hcond : (Vec2.mk 200 400).y - (Vec2.mk 100 300).y < 150 ∧
      (Vec2.mk 200 400).y - (Vec2.mk 100 300).y > 0 ∧
      Int.tmod (jsRound (Vec2.mk 100 300).y) 4 = 0 :=
    of_decide_eq_true (by with_unfolding_all rfl)
  exact ⟨hcond, enemy_homing_movement 3 ⟨200, 400⟩ ⟨100, 300⟩ hcond⟩

/-- C6 (amended).  The enemy-versus-projectile scan of `Enemy.update` tests
a 10-unit proximity (a 20-unit box, not the claimed 8-unit one) of the
enemy's post-movement position against every published slot of
`player.projectiles`; it queues the enemy's own id once per matching slot
and touches nothing else — in particular the matching projectile is not
removed by this enemy-side pass: the heap, the player record and hence the
projectile entries are unchanged, and only the enemy's id is appended to the
removal queue. -/
theorem enemy_projectile_collision (epos : Vec2) (id : ℕ) (l : List (Option Vec2)) (w : World) :
    (∀ (o : Option Vec2), projHit epos o = true ↔
      ∃ pr, o = some pr ∧ epos.x + 10 ≥ pr.x ∧ epos.x - 10 ≤ pr.x ∧
        epos.y + 10 ≥ pr.y ∧ epos.y - 10 ≤ pr.y) ∧
    (l.foldl (enemyProjStep epos id) w =
      { w with queued_entities_for_removal :=
          w.queued_entities_for_removal ++ List.replicate (l.countP (projHit epos)) id }) ∧
    (id ∈ (l.foldl (enemyProjStep epos id) w).queued_entities_for_removal ↔
      id ∈ w.queued_entities_for_removal ∨ ∃ o ∈ l, projHit epos o = true) := by
  have hcount : l.countP (projHit epos) ≠ 0 ↔ ∃ o ∈ l, projHit epos o = true := by
    rw [Ne, List.countP_eq_zero]
    push_neg
    simp
  refine ⟨?_, foldl_enemyProjStep epos id l w, ?_⟩
  · intro o
    cases o with
    | none => simp [projHit]
    | some pr =>
      simp only [projHit, decide_eq_true_eq, Option.some.injEq]
      constructor
      · intro h
        exact ⟨pr, rfl, h.1, h.2.1, h.2.2.1, h.2.2.2⟩
      · rintro ⟨pr2, hpr, h1, h2, h3, h4⟩
        subst hpr
        exact ⟨h1, h2, h3, h4⟩
  · rw [foldl_enemyProjStep]
    simp only [List.mem_append, List.mem_replicate]
    constructor
    · rintro (h | h)
      · exact Or.inl h
      · exact Or.inr (hcount.mp h.1)
    · rintro (h | h)
      · exact Or.inl h
      · exact Or.inr ⟨hcount.mpr h, trivial⟩

set_option maxHeartbeats 1000000 in
/-- C8 (amended).  The clamps are applied by each entity's own update: after
`Player.update` the player's position lies in `[0, 360] × [0, 500]`, and the
heap entry `Enemy.update` writes back is clamped into `[0, 410] × [0, 550]`
(the enemy clip allows 50 units of slack past the canvas on both axes).  An
enemy spawned during the step is merely registered at `y = -50` and gets no
update of its own that step, so its stored position is not subject to any
bound. -/
theorem positions_clamped (dt : ℚ) (v : World) (id : ℕ) (e : EnemyState) :
    (0 ≤ (playerUpdate dt v).player.position.x ∧
     (playerUpdate dt v).player.position.x ≤ canvasWidth ∧
     0 ≤ (playerUpdate dt v).player.position.y ∧
     (playerUpdate dt v).player.position.y ≤ canvasHeight) ∧
    (∀ p ∈ (enemyUpdate dt v id e).store, p.1 = id →
      ∃ e2, p.2 = Entity.enemy e2 ∧
        0 ≤ e2.position.x ∧ e2.position.x ≤ canvasWidth + 50 ∧
        0 ≤ e2.position.y ∧ e2.position.y ≤ canvasHeight + 50) := by
  constructor
  · simp only [playerUpdate_eq]
    refine ⟨le_min (le_max_left 0 _) ?_, min_le_right _ _,
      le_min (le_max_left 0 _) ?_, min_le_right _ _⟩
    · rw [canvasWidth]
      norm_num
    · rw [canvasHeight]
      norm_num
  · simp only [enemyUpdate_eq]
    intro p hp hpid
    simp only [storeSet, List.mem_map] at hp
    obtain ⟨q, hq, hpq⟩ := hp
    by_cases h : q.1 = id
    · rw [if_pos h] at hpq
      subst hpq
      refine ⟨_, rfl, ?_, ?_, ?_, ?_⟩
      · exact le_min (le_max_left 0 _) (by rw [canvasWidth]; norm_num)
      · exact min_le_right _ _
      · exact le_min (le_max_left 0 _) (by rw [canvasHeight]; norm_num)
      · exact min_le_right _ _
    · rw [if_neg h] at hpq
      rw [← hpq] at hpid
      exact absurd hpid h

set_option maxHeartbeats 1000000 in
/-- Witness for the clamping theorem: the player bound at the pristine
world. -/
theorem positions_clamped_witness :
    0 ≤ (playerUpdate fixedStep (pristineWorld zeroRng)).player.position.x ∧
    (playerUpdate fixedStep (pristineWorld zeroRng)).player.position.x ≤ canvasWidth ∧
    0 ≤ (playerUpdate fixedStep (pristineWorld zeroRng)).player.position.y ∧
    (playerUpdate fixedStep (pristineWorld zeroRng)).player.position.y ≤ canvasHeight :=
  (positions_clamped fixedStep (pristineWorld zeroRng) 2 c6Enemy).1

set_option maxRecDepth 4000000 in
/-- Witness for the fire-gate theorem: the armed world fires exactly one
projectile in the step. -/
theorem projectile_fire_gate_witness :
    WF c4w ∧ c4w.player_id ∈ c4w.entities ∧
    (∀ sid ∈ c4w.enemy_spawner, ¬ sid = c4w.player_id) ∧
    ¬ (isDeadHealth (updateWorldPre fixedStep fireCtrl c4w).player.health = true ∧
       (updateWorldPre fixedStep fireCtrl c4w).player.controller.action_1 = true) ∧
    projCount (updateWorld fixedStep fireCtrl c4w) =
      projCount c4w + (if fireCond c4w fireCtrl then 1 else 0) := by
  have hnr : ¬ (isDeadHealth (updateWorldPre fixedStep fireCtrl c4w).player.health = true ∧
      (updateWorldPre fixedStep fireCtrl c4w).player.controller.action_1 = true) :=
    of_decide_eq_true (by with_unfolding_all rfl)
  exact ⟨by decide, by decide, by decide, hnr,
    projectile_fire_gate fixedStep fireCtrl c4w (by decide) (by decide) (by decide) hnr⟩

/-- Witness for the death-suppression theorem at the dead-player world. -/
theorem death_suppression_witness :
    WF c7World ∧ c7World.player_id ∈ c7World.entities ∧
    (∀ sid ∈ c7World.enemy_spawner, ¬ sid = c7World.player_id) ∧
    c7World.player.health = 0 ∧ idleCtrl.action_1 = false ∧
    ((updateWorld fixedStep idleCtrl c7World).enemyCount =
        c7World.enemyCount + (if (c7World.player.enemyTimer + 1) % 20 = 0 then 1 else 0) ∧
     (hudFor c7World).timeAliveShown = 0 ∧
     (hudFor c7World).enemyCountShown = 0 ∧
     (hudFor c7World).totalScoreShown = 0 ∧
     gameOverShown c7World = true ∧
     (∀ (i1 i2 : ℕ → Controller) (c1 c2 : ℚ) (s1 s2 : SchedState) (delta : ℚ),
        (runSteps i1 c1 s1 delta).2.1.length = (runSteps i2 c2 s2 delta).2.1.length)) :=
  ⟨by decide, by decide, by decide, rfl, rfl,
   death_suppression fixedStep idleCtrl c7World (by decide) (by decide) (by decide) rfl rfl⟩

end Shooter
